import Mathlib

/-!
# osgEarth WMS tile source (`src/osgPlugins/wms/ReaderWriterWMS.cpp`)

A shallow embedding of `replaceIn` and of the class `WMSSource`
(constructor, its initialisation method, `createHeightField`, `createURI`,
`getExtension`), followed by the properties established about them.

Conventions of the embedding.

* A `std::string` is a `List Char` (`Str`).
* The collaborators that live outside the file (the capabilities reader, the
  tile-service reader, the spatial-reference factory, the profile registry,
  `Profile::create`, `osgDB::containsServerAddress`) are fields of an
  environment record `Env`; the objects they hand out (spatial references,
  profiles, tile patterns) are values of abstract types.
* A `ref_ptr` is an `Option`; dereferencing a null pointer is the fault
  `Fault.nullDereference`.
* A finite `double` is a sign bit with a dyadic magnitude (`Double`); the one
  `float` of the file, the scale factor of `createHeightField`, is the
  constant assigned to it rounded to binary64 and then to binary32.
* A string holds its characters up to the first NUL when it is read through
  `c_str()`, as `sprintf` does with the request prototype.
-/

namespace WMS

/-- A `std::string`. -/
abbrev Str := List Char

/-- The ways in which the embedded code can leave defined behaviour. -/
inductive Fault where
  /-- A member call through a null `ref_ptr`. -/
  | nullDereference
  /-- In `sprintf`, more characters than the destination array holds. -/
  | bufferOverflow
  /-- In `sprintf`, a conversion specification other than `%%`, `%f` and
  `%lf` (undefined with a `double` argument for `%s`, `%d` and the like, and
  not evaluated here otherwise), or one with no argument left. -/
  | formatMismatch
  deriving DecidableEq, Repr

/-- A finite `double`: sign bit, and magnitude `mantissa * 2 ^ exponent`.
Every finite IEEE 754 value, negative zero included, is of this form; a
finite `float` is written in the same form. -/
structure Double where
  negative : Bool
  mantissa : Nat
  exponent : Int
  deriving DecidableEq, Repr

/-- The rational number a finite `double` stands for. -/
def Double.value (d : Double) : Rat :=
  (if d.negative then -1 else 1) * ((d.mantissa : Rat) * (2 : Rat) ^ d.exponent)

/-- The comparison `d == 0`, true of both zeros. -/
def Double.isZero (d : Double) : Bool := decide (d.mantissa = 0)

/-- The `double` of an integer. -/
def Double.ofInt (i : Int) : Double :=
  { negative := decide (i < 0), mantissa := i.natAbs, exponent := 0 }

/-- The four numbers `getExtents` / `getLatLonExtents` / `getBounds` write. -/
structure Bounds where
  minx : Double
  miny : Double
  maxx : Double
  maxy : Double
  deriving DecidableEq, Repr

/-- The box with the given integer corners. -/
def Bounds.ofInts (minx miny maxx maxy : Int) : Bounds :=
  ⟨Double.ofInt minx, Double.ofInt miny, Double.ofInt maxx, Double.ofInt maxy⟩

/-- The test `minx == 0 && miny == 0 && maxx == 0 && maxy == 0`. -/
def Bounds.allZero (b : Bounds) : Bool :=
  b.minx.isZero && b.miny.isZero && b.maxx.isZero && b.maxy.isZero

/-- The members of `Layer` the file reads. -/
structure Layer where
  /-- What `getExtents` writes. -/
  extents : Bounds
  /-- What `getLatLonExtents` writes. -/
  latLonExtents : Bounds
  deriving DecidableEq, Repr

/-- The members of `Capabilities` the file reads. -/
structure Capabilities where
  suggestExtension : Str
  getLayerByName : Str → Option Layer

/-- The members of `TileService` the file reads; `getMatchingPatterns` is
given `(layers, format, style, srs, imageWidth, imageHeight)` and returns the
patterns it appends to the (empty) list passed in. -/
structure TileService (Profile Pattern : Type) where
  getMatchingPatterns : Str → Str → Str → Str → Int → Int → List Pattern
  createProfile : List Pattern → Option Profile

/-- The collaborators of `WMSSource` that are defined outside the file. -/
structure Env (SRS Profile Pattern : Type) where
  /-- `CapabilitiesReader::read(url, options)`. -/
  readCapabilities : Str → Option Capabilities
  /-- `TileServiceReader::read(url, options)`. -/
  readTileService : Str → Option (TileService Profile Pattern)
  /-- `SpatialReference::create(srs)`. -/
  createSRS : Str → Option SRS
  /-- `a->isEquivalentTo(b)`. -/
  isEquivalentTo : SRS → SRS → Bool
  /-- `a->isGeographic()`. -/
  isGeographic : SRS → Bool
  /-- `Registry::instance()->getGlobalMercatorProfile()`. -/
  globalMercatorProfile : Profile
  /-- `Registry::instance()->getGlobalGeodeticProfile()`. -/
  globalGeodeticProfile : Profile
  /-- `profile->getSRS()`. -/
  getSRS : Profile → SRS
  /-- `Profile::create(srs, minx, miny, maxx, maxy)`. -/
  createProfile : Str → Bounds → Option Profile
  /-- `pattern.getPrototype()`. -/
  getPrototype : Pattern → Str
  /-- `osgDB::containsServerAddress(uri)`. -/
  containsServerAddress : Str → Bool

/-- The part of `osgEarth::Config` the constructor uses. -/
structure Config where
  /-- `conf.value(key)`. -/
  value : String → Str
  /-- `conf.hasValue(key)`. -/
  hasValue : String → Bool
  /-- `conf.value<int>(key, fallback)`. -/
  valueInt : String → Int → Int

/-- The calls `initialize` makes that are visible from outside. -/
inductive Call (Profile : Type) where
  | readCapabilities (url : Str)
  | readTileService (url : Str)
  | setProfile (p : Option Profile)

/-- The data members of `WMSSource`, the profile of its base class
`TileSource` (written by `setProfile` only) and the log of outside calls. -/
structure WMSSource (Profile Pattern : Type) where
  /-- The member `_prefix` (the base URL). -/
  _prefix_ : Str
  _layers : Str
  _style : Str
  _format : Str
  _wms_format : Str
  _wms_version : Str
  _srs : Str
  _tileServiceURL : Str
  _capabilitiesURL : Str
  _tile_size : Int
  _elevation_unit : Str
  _tileService : Option (TileService Profile Pattern)
  _prototype : Str
  /-- The member `TileSource::_profile`. -/
  profile : Option Profile
  /-- The outside calls made so far, oldest first. -/
  calls : List (Call Profile)

/-! ## Strings -/

/-- The search behind `s.find(sub, pos)`, on the characters of `s` from
index `pos` on: the first index at which `sub` starts, if any. -/
def findAux (sub : Str) : Str → Nat → Option Nat
  | [], pos => if sub = [] then some pos else none
  | c :: cs, pos => if sub.isPrefixOf (c :: cs) then some pos else findAux sub cs (pos + 1)

/-- The call `s.find(sub, pos)`; `none` is `npos`. -/
def find (s sub : Str) (pos : Nat) : Option Nat :=
  if s.length < pos then none else findAux sub (s.drop pos) pos

/-- The call `s.replace(pos, n, other)` for `pos ≤ s.size()`. -/
def replace (s : Str) (pos n : Nat) (other : Str) : Str :=
  s.take pos ++ other ++ s.drop (pos + n)

set_option linter.unusedVariables false in
/-- The loop of `replaceIn` (lines 55-61), entered with `sub` not empty; the
state is the string `s` and the index `b`. -/
def replaceInLoop (sub : Str) (hsub : sub ≠ []) (other : Str) (s : Str) (b : Nat) : Str :=
  match h : find s sub b with
  | none => s
  | some b1 => replaceInLoop sub hsub other (replace s b1 sub.length other) (b1 + other.length)
termination_by s.length - b
decreasing_by
  have key : ∀ (t : Str) (pos k : Nat), findAux sub t pos = some k →
      pos ≤ k ∧ k + sub.length ≤ pos + t.length := by
    intro t
    induction t with
    | nil =>
      intro pos k hk
      simp [findAux, hsub] at hk
    | cons c cs ih =>
      intro pos k hk
      unfold findAux at hk
      split at hk
      · next hpre =>
        have hle := (List.isPrefixOf_iff_prefix.mp hpre).length_le
        simp only [Option.some.injEq] at hk
        subst hk
        exact ⟨le_refl _, by omega⟩
      · have := ih (pos + 1) k hk
        simp only [List.length_cons]
        omega
  have hsub1 : 0 < sub.length := List.length_pos.mpr hsub
  unfold find at h
  split at h
  · simp at h
  · have hb := key _ _ _ h
    simp only [List.length_drop] at hb
    simp only [replace, List.length_append, List.length_take, List.length_drop]
    omega

/-- The function `replaceIn` (lines 50-63): every occurrence of `sub` in `s`
is replaced by `other`, scanning from the left and resuming after each
replacement. -/
def replaceIn (s sub other : Str) : Str :=
  if h : sub = [] then s else replaceInLoop sub h other s 0

/-- The loop of `replaceIn` run for at most `fuel` turns: the string it
returns, or nothing when the loop has not reached its `break` by then. -/
def replaceInFuel : Nat → Str → Str → Str → Nat → Option Str
  | 0, _, _, _, _ => none
  | fuel + 1, sub, other, s, b =>
    match find s sub b with
    | none => some s
    | some b1 => replaceInFuel fuel sub other (replace s b1 sub.length other) (b1 + other.length)

/-- The string `s` with every space replaced by `%20` and nothing else
changed: the escaping `createURI` is meant to perform. -/
def escapeSpaces : Str → Str
  | [] => []
  | c :: cs => if c = ' ' then '%' :: '2' :: '0' :: escapeSpaces cs else c :: escapeSpaces cs

/-! ## Formatted output -/

/-- The decimal digits of a natural number, most significant first, as
`operator<<` writes them; `fuel` bounds the number of digits. -/
def natToDecAux : Nat → Nat → Str → Str
  | 0, _, acc => acc
  | fuel + 1, n, acc =>
    let acc1 := Nat.digitChar (n % 10) :: acc
    if n / 10 = 0 then acc1 else natToDecAux fuel (n / 10) acc1

/-- What `stream << n` writes for an unsigned value. -/
def natToDec (n : Nat) : Str := natToDecAux (n + 1) n []

/-- What `stream << i` writes for an `int`. -/
def intToDec (i : Int) : Str :=
  if i < 0 then '-' :: natToDec i.natAbs else natToDec i.natAbs

/-- The quotient `n / d` rounded to the nearest natural number, ties to the
even one. -/
def roundHalfEven (n d : Nat) : Nat :=
  let q := n / d
  let r := n % d
  if 2 * r < d then q else if d < 2 * r then q + 1 else if q % 2 = 0 then q else q + 1

/-- The number of binary digits of `n` less one, for `n ≥ 1`; `fuel` bounds
the number of halvings. -/
def log2Aux : Nat → Nat → Nat
  | 0, _ => 0
  | fuel + 1, n => if n < 2 then 0 else log2Aux fuel (n / 2) + 1

/-- The integer part of the binary logarithm of `n`, for `n ≥ 1`. -/
def log2 (n : Nat) : Nat := log2Aux n n

/-- The positive quotient `n / d` rounded to the nearest binary
floating-point value with `p` bits of mantissa, ties to even, exponent range
not limited: what a conversion to binary64 (`p = 53`) or binary32 (`p = 24`)
gives for a value in the normal range. -/
def roundBinary (p n d : Nat) : Double :=
  if n = 0 then ⟨false, 0, 0⟩
  else
    let e0 : Int := (log2 n : Int) - (log2 d : Int)
    let below : Bool :=
      if 0 ≤ e0 then decide (n < d * 2 ^ e0.toNat) else decide (n * 2 ^ (-e0).toNat < d)
    let e : Int := if below then e0 - 1 else e0
    let s : Int := e - (p : Int) + 1
    let m : Nat :=
      if 0 ≤ s then roundHalfEven n (d * 2 ^ s.toNat) else roundHalfEven (n * 2 ^ (-s).toNat) d
    ⟨false, m, s⟩

/-- The `double` a decimal constant `n / d` of the source text denotes. -/
def decimalConstant (n d : Nat) : Double := roundBinary 53 n d

/-- The conversion of a `double` to `float`. -/
def Double.toFloat (x : Double) : Double :=
  let r :=
    if 0 ≤ x.exponent then roundBinary 24 (x.mantissa * 2 ^ x.exponent.toNat) 1
    else roundBinary 24 x.mantissa (2 ^ (-x.exponent).toNat)
  { r with negative := x.negative }

/-- The magnitude of a `double` in millionths, correctly rounded. -/
def Double.millionths (d : Double) : Nat :=
  match d.exponent with
  | Int.ofNat e => d.mantissa * 2 ^ e * 10 ^ 6
  | Int.negSucc e => roundHalfEven (d.mantissa * 10 ^ 6) (2 ^ (e + 1))

/-- The last `width` decimal digits of `n`, with leading zeros. -/
def padDec : Nat → Nat → Str
  | 0, _ => []
  | width + 1, n => padDec width (n / 10) ++ [Nat.digitChar (n % 10)]

/-- What the conversion `%lf` (equally `%f`) writes for a finite `double` in
the C locale: sign, integer digits, a point and six decimals, correctly
rounded. -/
def formatDouble (d : Double) : Str :=
  (if d.negative then ['-'] else [])
    ++ natToDec (d.millionths / 10 ^ 6) ++ '.' :: padDec 6 (d.millionths % 10 ^ 6)

/-- The NUL character, which ends a C string. -/
def nul : Char := Char.ofNat 0

/-- The call `sprintf(buf, format, a0, a1, ...)` with `double` arguments, as
far as the output goes: ordinary characters are copied, `%%` writes a percent
sign, `%lf` and `%f` write the next argument, the format ends at its first NUL.
Any other conversion specification, and one with no argument left, is the
fault `Fault.formatMismatch`. -/
def sprintf : Str → List Double → Except Fault Str
  | [], _ => pure []
  | c :: rest, args =>
    if c = nul then pure []
    else if c = '%' then
      match rest with
      | [] => throw Fault.formatMismatch
      | c1 :: rest1 =>
        if c1 = '%' then (sprintf rest1 args).map fun out => '%' :: out
        else if c1 = 'f' then
          match args with
          | [] => throw Fault.formatMismatch
          | a :: args1 => (sprintf rest1 args1).map fun out => formatDouble a ++ out
        else if c1 = 'l' then
          match rest1 with
          | [] => throw Fault.formatMismatch
          | c2 :: rest2 =>
            if c2 = 'f' then
              match args with
              | [] => throw Fault.formatMismatch
              | a :: args1 => (sprintf rest2 args1).map fun out => formatDouble a ++ out
            else throw Fault.formatMismatch
        else throw Fault.formatMismatch
    else (sprintf rest args).map fun out => c :: out

/-- The characters that may stand between the `%` and the conversion
character of a conversion specification: flags, width, precision, length. -/
def isSpecModifier (c : Char) : Bool :=
  c ∈ "-+ #0123456789.*hlLqjzt".toList

/-- The scanner behind `conversionSpecs`; `cur` is the conversion
specification being read, if one is open. -/
def scanSpecs : Str → Option Str → List Str
  | [], none => []
  | [], some cur => [cur]
  | c :: rest, none =>
    if c = nul then []
    else if c = '%' then scanSpecs rest (some ['%'])
    else scanSpecs rest none
  | c :: rest, some cur =>
    if c = nul then [cur]
    else if cur = ['%'] ∧ c = '%' then scanSpecs rest none
    else if isSpecModifier c then scanSpecs rest (some (cur ++ [c]))
    else (cur ++ [c]) :: scanSpecs rest none

/-- The conversion specifications of a `printf` format that consume an
argument, in order, each from its `%` to its conversion character (`%%`
consumes none and is left out). -/
def conversionSpecs (format : Str) : List Str := scanSpecs format none

/-- A string with neither a percent sign nor a NUL: `sprintf` copies it
unchanged. -/
abbrev Plain (s : Str) : Prop := '%' ∉ s ∧ nul ∉ s

/-- The four placeholders of the bounding box. -/
def bboxPlaceholders : Str := "%lf,%lf,%lf,%lf".toList

/-- The four bounds as `%lf,%lf,%lf,%lf` writes them. -/
def formatBounds (b : Bounds) : Str :=
  formatDouble b.minx ++ ',' :: formatDouble b.miny ++ ',' :: formatDouble b.maxx
    ++ ',' :: formatDouble b.maxy

/-- A finite IEEE 754 binary64 value: 53 bits of mantissa, and a magnitude
below `2 ^ 1024`. -/
abbrev Double.isBinary64 (d : Double) : Prop := d.mantissa < 2 ^ 53 ∧ d.exponent ≤ 971

/-- The natural number written by a string of decimal digits, continuing
from `acc`. -/
def parseDigits : Str → Nat → Option Nat
  | [], acc => some acc
  | c :: cs, acc =>
    if c.isDigit then parseDigits cs (10 * acc + (c.toNat - '0'.toNat)) else none

/-- The number written by an optional minus sign, decimal digits, a point and
decimal digits: how a fixed-point number of a URI is read back. -/
def parseFixed (s : Str) : Option Rat :=
  let negative := decide (s.head? = some '-')
  let body := if negative then s.drop 1 else s
  let whole := body.takeWhile fun c => c != '.'
  let fraction := (body.dropWhile fun c => c != '.').drop 1
  match parseDigits whole 0, parseDigits fraction 0 with
  | some i, some f =>
    some ((if negative then -1 else 1) * ((i : Rat) + (f : Rat) / (10 : Rat) ^ fraction.length))
  | _, _ => none

section Model

variable {SRS Profile Pattern : Type}

/-- The constructor `WMSSource::WMSSource` (lines 68-101). -/
def WMSSource.new (conf : Config) : WMSSource Profile Pattern :=
  let _elevation_unit := conf.value "elevation_unit"
  { _prefix_ := conf.value "url"
    _layers := conf.value "layers"
    _style := conf.value "style"
    _format := conf.value "format"
    _wms_format := conf.value "wms_format"
    _wms_version := if conf.hasValue "wms_version" then conf.value "wms_version" else "1.1.1".toList
    _capabilitiesURL := conf.value "capabilities_url"
    _tileServiceURL := conf.value "tileservice_url"
    _elevation_unit := if _elevation_unit = [] then "m".toList else _elevation_unit
    _srs := conf.value "srs"
    _tile_size :=
      if conf.hasValue "tile_size" then conf.valueInt "tile_size" 256
      else conf.valueInt "default_tile_size" 256
    _tileService := none
    _prototype := []
    profile := none
    calls := [] }

/-- The separator of line 108:
`_prefix.find_first_of('?') == npos ? '?' : '&'`. -/
def separator (pfx : Str) : Char :=
  if '?' ∈ pfx then '&' else '?'

/-- The capabilities URL after lines 110-111. -/
def capabilitiesURL (src : WMSSource Profile Pattern) : Str :=
  if src._capabilitiesURL = [] then
    src._prefix_ ++ [separator src._prefix_]
      ++ "SERVICE=WMS&VERSION=1.1.1&REQUEST=GetCapabilities".toList
  else src._capabilitiesURL

/-- The tile-service URL after lines 205-206. -/
def tileServiceURL (src : WMSSource Profile Pattern) : Str :=
  if src._tileServiceURL = [] then
    src._prefix_ ++ [separator src._prefix_] ++ "request=GetTileService".toList
  else src._tileServiceURL

/-- The format after lines 122-129. -/
def resolveFormat (src : WMSSource Profile Pattern) (caps : Capabilities) : Str :=
  let f := if src._format = [] then caps.suggestExtension else src._format
  if f = [] then "png".toList else f

/-- The SRS identifier after lines 131-132. -/
def resolveSRS (src : WMSSource Profile Pattern) : Str :=
  if src._srs = [] then "EPSG:4326".toList else src._srs

/-- The WMS request prototype of lines 135-147, built from the members as
they stand after the format and the SRS were defaulted. -/
def getMapPrototype (src : WMSSource Profile Pattern) : Str :=
  src._prefix_ ++ [separator src._prefix_]
    ++ "SERVICE=WMS&VERSION=".toList ++ src._wms_version ++ "&REQUEST=GetMap".toList
    ++ "&LAYERS=".toList ++ src._layers
    ++ "&FORMAT=".toList
    ++ (if src._wms_format = [] then "image/".toList ++ src._format else src._wms_format)
    ++ "&STYLES=".toList ++ src._style
    ++ "&SRS=".toList ++ src._srs
    ++ "&WIDTH=".toList ++ intToDec src._tile_size
    ++ "&HEIGHT=".toList ++ intToDec src._tile_size
    ++ "&BBOX=%lf,%lf,%lf,%lf".toList

/-- Lines 151-159: the two well-known profiles, tried on the SRS identifier
alone. -/
def wellKnownProfile (env : Env SRS Profile Pattern) (wms_srs : Option SRS) : Option Profile :=
  match wms_srs with
  | none => none
  | some s =>
    if env.isEquivalentTo s (env.getSRS env.globalMercatorProfile) then
      some env.globalMercatorProfile
    else if env.isEquivalentTo s (env.getSRS env.globalGeodeticProfile) then
      some env.globalGeodeticProfile
    else none

/-- Lines 162-194: the profile gleaned from the extents of the layer named
`_layers`, when no profile was found yet. -/
def layerProfile (env : Env SRS Profile Pattern) (caps : Capabilities) (_layers _srs : Str)
    (wms_srs : Option SRS) (result : Option Profile) : Except Fault (Option Profile) :=
  if result.isSome then pure result
  else
    match caps.getLayerByName _layers with
    | none => pure result
    | some layer =>
      let ext := layer.extents
      match wms_srs with
      | none => throw Fault.nullDereference
      | some s =>
        if env.isGeographic s then
          let ext1 := if ext.allZero then layer.latLonExtents else ext
          let result1 := if ext1.allZero then some env.globalGeodeticProfile else result
          if result1.isSome then pure result1 else pure (env.createProfile _srs ext1)
        else
          pure (env.createProfile _srs ext)

/-- Lines 196-200: the last resort, a global geodetic profile for a
geographic SRS. -/
def lastResortProfile (env : Env SRS Profile Pattern) (wms_srs : Option SRS)
    (result : Option Profile) : Except Fault (Option Profile) :=
  if result.isSome then pure result
  else
    match wms_srs with
    | none => throw Fault.nullDereference
    | some s => if env.isGeographic s then pure (some env.globalGeodeticProfile) else pure result

/-- Lines 149-200: the profile the resolver settles on before the tile
service is asked. -/
def resolveProfile (env : Env SRS Profile Pattern) (caps : Capabilities)
    (src : WMSSource Profile Pattern) : Except Fault (Option Profile) :=
  let wms_srs := env.createSRS src._srs
  (layerProfile env caps src._layers src._srs wms_srs (wellKnownProfile env wms_srs)) >>=
    lastResortProfile env wms_srs

/-- Lines 203-233: the tile-service probe, its override of profile and
prototype, the format suffix and the call of `setProfile`. -/
def applyTileService (env : Env SRS Profile Pattern) (src : WMSSource Profile Pattern)
    (result : Option Profile) : WMSSource Profile Pattern :=
  let url := tileServiceURL src
  let _tileService := env.readTileService url
  let patterns : List Pattern :=
    match _tileService with
    | some ts =>
      ts.getMatchingPatterns src._layers src._format src._style src._srs
        src._tile_size src._tile_size
    | none => []
  let overridden : Option Profile × Str :=
    match _tileService, patterns with
    | some ts, p :: _ =>
      (ts.createProfile patterns, src._prefix_ ++ [separator src._prefix_] ++ env.getPrototype p)
    | _, _ => (result, src._prototype)
  { src with
    _tileServiceURL := url
    _tileService := _tileService
    _prototype := overridden.2 ++ "&.".toList ++ src._format
    profile := overridden.1
    calls := src.calls ++ [Call.readTileService url, Call.setProfile overridden.1] }

/-- Lines 110-111 and the call of line 114: the capabilities URL is
settled and the reader is called on it. -/
def requestCapabilities (src : WMSSource Profile Pattern) : WMSSource Profile Pattern :=
  { src with
    _capabilitiesURL := capabilitiesURL src
    calls := src.calls ++ [Call.readCapabilities (capabilitiesURL src)] }

/-- Lines 122-147, run once the capabilities were read: format and SRS are
defaulted and the WMS request prototype is built. -/
def buildPrototype (src : WMSSource Profile Pattern) (capabilities : Capabilities) :
    WMSSource Profile Pattern :=
  let src1 := { src with _format := resolveFormat src capabilities, _srs := resolveSRS src }
  { src1 with _prototype := getMapPrototype src1 }

/-- The method `WMSSource::initialize` (lines 104-234), named
`initializeSource` because the source's name is reserved.  The arguments
`referenceURI` and `overrideProfile` are not read by the body. -/
def initializeSource (env : Env SRS Profile Pattern) (src : WMSSource Profile Pattern) :
    Except Fault (WMSSource Profile Pattern) :=
  let src1 := requestCapabilities src
  match env.readCapabilities src1._capabilitiesURL with
  | none => pure src1
  | some capabilities =>
    let src2 := buildPrototype src1 capabilities
    (resolveProfile env capabilities src2) >>= fun result => pure (applyTileService env src2 result)

/-- Lines 281-284 of `createURI`: the prototype is formatted with the four
bounds into a buffer of 2048 characters, which must also hold the closing
NUL, and read back as a string. -/
def formatURI (_prototype : Str) (bounds : Bounds) : Except Fault Str :=
  (sprintf _prototype [bounds.minx, bounds.miny, bounds.maxx, bounds.maxy]) >>= fun buf =>
    if buf.length < 2048 then pure buf else throw Fault.bufferOverflow

/-- Lines 286-288 of `createURI`: spaces are escaped when the string holds a
server address. -/
def urlize (env : Env SRS Profile Pattern) (uri : Str) : Str :=
  if env.containsServerAddress uri then replaceIn uri " ".toList "%20".toList else uri

/-- The method `WMSSource::createURI` (lines 276-291); `bounds` is what
`key->getGeoExtent().getBounds` writes. -/
def createURI (env : Env SRS Profile Pattern) (src : WMSSource Profile Pattern)
    (bounds : Bounds) : Except Fault Str :=
  (formatURI src._prototype bounds).map (urlize env)

/-- The method `WMSSource::createImage` (lines 237-252); `readImageFile` is
`HTTPClient::readImageFile`, giving the image or nothing. -/
def createImage {Image : Type} (env : Env SRS Profile Pattern) (readImageFile : Str → Option Image)
    (src : WMSSource Profile Pattern) (bounds : Bounds) : Except Fault (Option Image) :=
  (createURI env src bounds).map readImageFile

/-- Lines 264-270 of `createHeightField`: the `float scaleFactor`, which
starts as `1` and is assigned the `double` constant `0.3048` for the unit
`ft`. -/
def scaleFactorFloat (_elevation_unit : Str) : Double :=
  if _elevation_unit = "ft".toList then (decimalConstant 3048 10000).toFloat
  else (Double.ofInt 1).toFloat

/-- The number the `float scaleFactor` of lines 264-270 stands for. -/
def scaleFactor (_elevation_unit : Str) : Rat :=
  (scaleFactorFloat _elevation_unit).value

/-- The method `WMSSource::createHeightField` (lines 255-274), up to the
call of the converter: the result is the pair of arguments `conv.convert` is
called with. -/
def createHeightField {Image : Type} (env : Env SRS Profile Pattern)
    (readImageFile : Str → Option Image) (src : WMSSource Profile Pattern) (bounds : Bounds) :
    Except Fault (Option Image × Rat) :=
  (createImage env readImageFile src bounds).map fun image =>
    (image, scaleFactor src._elevation_unit)

/-- The WMS request prototype of lines 135-147 up to and including
`&BBOX=`, that is without its four placeholders. -/
def getMapQuery (src : WMSSource Profile Pattern) : Str :=
  src._prefix_ ++ [separator src._prefix_]
    ++ "SERVICE=WMS&VERSION=".toList ++ src._wms_version ++ "&REQUEST=GetMap".toList
    ++ "&LAYERS=".toList ++ src._layers
    ++ "&FORMAT=".toList
    ++ (if src._wms_format = [] then "image/".toList ++ src._format else src._wms_format)
    ++ "&STYLES=".toList ++ src._style
    ++ "&SRS=".toList ++ src._srs
    ++ "&WIDTH=".toList ++ intToDec src._tile_size
    ++ "&HEIGHT=".toList ++ intToDec src._tile_size
    ++ "&BBOX=".toList

/-- The request prototype of the standard WMS path with its bounding box
filled in: the query up to `&BBOX=`, the four bounds, and the format suffix. -/
def filledPrototype (src : WMSSource Profile Pattern) (bounds : Bounds) : Str :=
  getMapQuery src ++ formatBounds bounds ++ "&.".toList ++ src._format

/-- The strings that go into the request prototype hold neither a percent
sign nor a NUL. -/
abbrev PlainConfig (src : WMSSource Profile Pattern) (caps : Capabilities) : Prop :=
  Plain src._prefix_ ∧ Plain src._wms_version ∧ Plain src._layers ∧ Plain src._style ∧
  Plain src._format ∧ Plain caps.suggestExtension ∧ Plain src._wms_format ∧ Plain src._srs

/-- The source after its initialisation, and the source itself when the
initialisation faults. -/
def initialized (env : Env SRS Profile Pattern) (src : WMSSource Profile Pattern) :
    WMSSource Profile Pattern :=
  match initializeSource env src with
  | Except.ok out => out
  | Except.error _ => src

/-- The method `WMSSource::getExtension` (lines 298-301). -/
def getExtension (src : WMSSource Profile Pattern) : Str := src._format

/-- The method `WMSSource::getPixelsPerTile` (lines 293-296). -/
def getPixelsPerTile (src : WMSSource Profile Pattern) : Int := src._tile_size

end Model

/-! ## A concrete environment

A small, fully computable instance of the collaborators, used to evaluate the
embedding on concrete inputs. -/

/-- The spatial references of the concrete environment. -/
inductive DemoSRS where
  | sphericalMercator
  | wgs84
  | nad83
  | utm33
  deriving DecidableEq, Repr

/-- The profiles of the concrete environment. -/
inductive DemoProfile where
  | globalMercator
  | globalGeodetic
  | custom (srs : DemoSRS) (b : Bounds)
  | tiled (patterns : List Str)
  deriving DecidableEq, Repr

/-- The factory of the concrete environment: four identifiers are known. -/
def demoCreateSRS (id : Str) : Option DemoSRS :=
  if id = "EPSG:900913".toList then some DemoSRS.sphericalMercator
  else if id = "EPSG:4326".toList then some DemoSRS.wgs84
  else if id = "EPSG:4269".toList then some DemoSRS.nad83
  else if id = "EPSG:32633".toList then some DemoSRS.utm33
  else none

/-- The SRS of a profile of the concrete environment. -/
def demoGetSRS : DemoProfile → DemoSRS
  | DemoProfile.globalMercator => DemoSRS.sphericalMercator
  | DemoProfile.globalGeodetic => DemoSRS.wgs84
  | DemoProfile.custom srs _ => srs
  | DemoProfile.tiled _ => DemoSRS.wgs84

/-- The concrete environment, over a capabilities reader and a tile-service
reader; a tile pattern is its prototype fragment. -/
def demoEnv (readCaps : Str → Option Capabilities)
    (readTS : Str → Option (TileService DemoProfile Str)) : Env DemoSRS DemoProfile Str where
  readCapabilities := readCaps
  readTileService := readTS
  createSRS := demoCreateSRS
  isEquivalentTo := fun a b => decide (a = b)
  isGeographic := fun a => decide (a = DemoSRS.wgs84) || decide (a = DemoSRS.nad83)
  globalMercatorProfile := DemoProfile.globalMercator
  globalGeodeticProfile := DemoProfile.globalGeodetic
  getSRS := demoGetSRS
  createProfile := fun id b => (demoCreateSRS id).map fun srs => DemoProfile.custom srs b
  getPrototype := fun p => p
  containsServerAddress := fun uri => "http://".toList.isPrefixOf uri

/-- A configuration holding the listed `(key, value)` pairs and no tile
size. -/
def demoConfig (entries : List (String × String)) : Config where
  value := fun key => ((entries.lookup key).getD "").toList
  hasValue := fun key => (entries.lookup key).isSome
  valueInt := fun _ fallback => fallback

/-- A capabilities document with one layer `L1` and a suggested extension. -/
def demoCapabilities (ext : Str) (native latLon : Bounds) : Capabilities where
  suggestExtension := ext
  getLayerByName := fun name =>
    if name = "L1".toList then some { extents := native, latLonExtents := latLon } else none

/-- A tile-service document answering every query with the given patterns. -/
def demoTileService (patterns : List Str) : TileService DemoProfile Str where
  getMatchingPatterns := fun _ _ _ _ _ _ => patterns
  createProfile := fun ps => some (DemoProfile.tiled ps)

/-- The source constructed from the listed configuration entries. -/
def demoSource (entries : List (String × String)) : WMSSource DemoProfile Str :=
  WMSSource.new (demoConfig entries)

/-- A capabilities document whose layer `L1` reports no native extents and
the whole globe as geographic extents; it suggests `jpg`. -/
def worldCapabilities : Capabilities :=
  demoCapabilities "jpg".toList (Bounds.ofInts 0 0 0 0) (Bounds.ofInts (-180) (-90) 180 90)

/-- The concrete environment with a readable capabilities document and no
tile-service document. -/
def plainEnv : Env DemoSRS DemoProfile Str :=
  demoEnv (fun _ => some worldCapabilities) (fun _ => none)

/-- The concrete environment with a readable capabilities document and a
tile-service document that answers with two patterns. -/
def tiledEnv : Env DemoSRS DemoProfile Str :=
  demoEnv (fun _ => some worldCapabilities)
    (fun _ => some (demoTileService
      ["request=GetMap&layers=global_mosaic&bbox=%lf,%lf,%lf,%lf".toList,
       "request=GetMap&layers=global_mosaic_base&bbox=%lf,%lf,%lf,%lf".toList]))

/-- The concrete environment whose capabilities document cannot be read,
while its tile-service document can and answers with one pattern. -/
def unreachableEnv : Env DemoSRS DemoProfile Str :=
  demoEnv (fun _ => none)
    (fun _ => some (demoTileService
      ["request=GetMap&layers=global_mosaic&bbox=%lf,%lf,%lf,%lf".toList]))

/-- The concrete environment without tile service in which `Profile::create`
returns null. -/
def nullProfileEnv : Env DemoSRS DemoProfile Str :=
  { plainEnv with createProfile := fun _ _ => none }

/-- A source configured for spherical Mercator. -/
def mercatorSource : WMSSource DemoProfile Str :=
  demoSource [("url", "http://x/wms"), ("layers", "L1"), ("srs", "EPSG:900913")]

/-- A source with only base URL and layer configured: format, SRS and
elevation unit are unset. -/
def defaultSource : WMSSource DemoProfile Str :=
  demoSource [("url", "http://x/wms?"), ("layers", "L1")]

/-- A source whose SRS is geographic without being one of the two well-known
references. -/
def nad83Source : WMSSource DemoProfile Str :=
  demoSource [("url", "http://x/wms"), ("layers", "L1"), ("srs", "EPSG:4269")]

/-- A source configured with the SRS `EPSG:4326`. -/
def wgs84Source : WMSSource DemoProfile Str :=
  demoSource [("url", "http://x/wms"), ("layers", "L1"), ("srs", "EPSG:4326")]

/-- A source that reads a local file and reports heights in feet. -/
def feetSource : WMSSource DemoProfile Str :=
  { demoSource [("url", "tiles.wms"), ("elevation_unit", "ft")] with
    _prototype := "tiles.wms?BBOX=%lf,%lf,%lf,%lf&.tif".toList }

/-- A source whose layer name holds a space. -/
def spacedSource : WMSSource DemoProfile Str :=
  demoSource [("url", "http://x/wms"), ("layers", "a b")]

/-- A source whose layer name holds a conversion specification. -/
def percentSource : WMSSource DemoProfile Str :=
  demoSource [("url", "http://x/wms"), ("layers", "%s")]

/-- The whole globe in degrees. -/
def globe : Bounds := Bounds.ofInts (-180) (-90) 180 90

/-- A source whose SRS is geographic without being a well-known reference
and whose layer the capabilities document does not list. -/
def unlistedSource : WMSSource DemoProfile Str :=
  demoSource [("url", "http://x/wms"), ("layers", "L2"), ("srs", "EPSG:4269")]

/-- A source whose SRS identifier the factory cannot resolve. -/
def unknownSRSSource : WMSSource DemoProfile Str :=
  demoSource [("url", "http://x/wms"), ("layers", "L1"), ("srs", "EPSG:0")]

/-- A source whose layer list is 2048 characters long. -/
def longSource : WMSSource DemoProfile Str :=
  demoSource [("url", "http://x/wms"), ("layers", String.mk (List.replicate 2048 'a'))]

/-- An image reader that finds nothing. -/
def noImage : Str → Option Unit := fun _ => none

/-! ## Properties of `replaceIn` -/

/-- Where the search finds the pattern: not before the start, and with the
whole pattern inside the string. -/
theorem findAux_bounds (sub : Str) (hsub : sub ≠ []) (t : Str) (pos k : Nat)
    (hk : findAux sub t pos = some k) : pos ≤ k ∧ k + sub.length ≤ pos + t.length := by
  induction t generalizing pos with
  | nil => simp [findAux, hsub] at hk
  | cons c cs ih =>
    unfold findAux at hk
    split at hk
    · next hpre =>
      have hle := (List.isPrefixOf_iff_prefix.mp hpre).length_le
      simp only [Option.some.injEq] at hk
      subst hk
      exact ⟨le_refl _, by omega⟩
    · have := ih (pos + 1) hk
      simp only [List.length_cons]
      omega

/-- Where `s.find(sub, b)` finds a non-empty pattern. -/
theorem find_bounds (s sub : Str) (hsub : sub ≠ []) (b b1 : Nat)
    (h : find s sub b = some b1) : b ≤ b1 ∧ b1 + sub.length ≤ s.length := by
  unfold find at h
  split at h
  · simp at h
  · have hb := findAux_bounds sub hsub _ _ _ h
    simp only [List.length_drop] at hb
    omega

/-- One replacement shortens the part of the string still to be scanned by
the length of the pattern at least. -/
theorem replace_measure (s sub other : Str) (hsub : sub ≠ []) (b b1 : Nat)
    (h : find s sub b = some b1) :
    (replace s b1 sub.length other).length - (b1 + other.length) + sub.length
      ≤ s.length - b := by
  have hb := find_bounds s sub hsub b b1 h
  simp only [replace, List.length_append, List.length_take, List.length_drop]
  omega

/-- After a replacement the scan resumes right behind the inserted text. -/
theorem replace_take (s other : Str) (b1 n : Nat) (h : b1 ≤ s.length) :
    (replace s b1 n other).take (b1 + other.length) = s.take b1 ++ other := by
  have hlen : (s.take b1 ++ other).length = b1 + other.length := by
    simp [List.length_take, Nat.min_eq_left h]
  rw [replace, ← hlen, List.take_left]

/-- One turn of the loop of `replaceIn`. -/
theorem replaceInLoop_eq (sub : Str) (hsub : sub ≠ []) (other s : Str) (b : Nat) :
    replaceInLoop sub hsub other s b
      = match find s sub b with
        | none => s
        | some b1 =>
          replaceInLoop sub hsub other (replace s b1 sub.length other) (b1 + other.length) := by
  rw [replaceInLoop]
  split <;> simp_all

/-- The search for a one-character string fails when the character does
not occur. -/
theorem findAux_single_none (c : Char) (t : Str) (pos : Nat) (h : c ∉ t) :
    findAux [c] t pos = none := by
  induction t generalizing pos with
  | nil => simp [findAux]
  | cons x xs ih =>
    have hx : c ≠ x := fun e => h (e ▸ List.mem_cons_self _ _)
    have hxs : c ∉ xs := fun e => h (List.mem_cons_of_mem _ e)
    simp [findAux, List.isPrefixOf, hx, ih (pos + 1) hxs]

/-- The search for a one-character string stops at the first occurrence. -/
theorem findAux_single_some (c : Char) (pre post : Str) (pos : Nat) (h : c ∉ pre) :
    findAux [c] (pre ++ c :: post) pos = some (pos + pre.length) := by
  induction pre generalizing pos with
  | nil => simp [findAux, List.isPrefixOf]
  | cons x xs ih =>
    have hx : c ≠ x := fun e => h (e ▸ List.mem_cons_self _ _)
    have hxs : c ∉ xs := fun e => h (List.mem_cons_of_mem _ e)
    simp [findAux, List.isPrefixOf, hx, ih (pos + 1) hxs]
    omega

/-- A list splits at the first occurrence of a member. -/
theorem exists_first_occurrence (c : Char) (t : Str) (h : c ∈ t) :
    ∃ pre post, t = pre ++ c :: post ∧ c ∉ pre := by
  induction t with
  | nil => simp at h
  | cons x xs ih =>
    by_cases hx : c = x
    · exact ⟨[], xs, by simp [hx], by simp⟩
    · have hxs : c ∈ xs := by
        rcases List.mem_cons.mp h with e | e
        · exact absurd e hx
        · exact e
      obtain ⟨pre, post, hsplit, hpre⟩ := ih hxs
      refine ⟨x :: pre, post, by simp [hsplit], ?_⟩
      intro hmem
      rcases List.mem_cons.mp hmem with e | e
      · exact hx e
      · exact hpre e

/-- Escaping changes nothing in a string without spaces. -/
theorem escapeSpaces_of_not_mem (t : Str) (h : ' ' ∉ t) : escapeSpaces t = t := by
  induction t with
  | nil => rfl
  | cons x xs ih =>
    have hx : x ≠ ' ' := fun e => h (e ▸ List.mem_cons_self _ _)
    have hxs : ' ' ∉ xs := fun e => h (List.mem_cons_of_mem _ e)
    simp [escapeSpaces, hx, ih hxs]

/-- Escaping goes through concatenation. -/
theorem escapeSpaces_append (s t : Str) :
    escapeSpaces (s ++ t) = escapeSpaces s ++ escapeSpaces t := by
  induction s with
  | nil => rfl
  | cons x xs ih =>
    by_cases hx : x = ' ' <;> simp [escapeSpaces, hx, ih]

/-- The loop of `replaceIn` for the pattern `" "` and the replacement
`"%20"`, entered at the end of the part `done`: the rest is escaped. -/
theorem replaceInLoop_space (n : Nat) (done rest : Str) (hn : rest.length ≤ n) :
    replaceInLoop [' '] (by simp) "%20".toList (done ++ rest) done.length
      = done ++ escapeSpaces rest := by
  induction n generalizing done rest with
  | zero =>
    have hrest : rest = [] := List.length_eq_zero.mp (Nat.le_zero.mp hn)
    subst hrest
    rw [replaceInLoop_eq]
    simp [find, findAux, escapeSpaces]
  | succ n ih =>
    rw [replaceInLoop_eq]
    by_cases hmem : ' ' ∈ rest
    · obtain ⟨pre, post, hsplit, hpre⟩ := exists_first_occurrence ' ' rest hmem
      subst hsplit
      have hfind : find (done ++ (pre ++ ' ' :: post)) [' '] done.length
          = some (done.length + pre.length) := by
        simp [find, findAux_single_some ' ' pre post done.length hpre]
      rw [hfind]
      have hrep : replace (done ++ (pre ++ ' ' :: post)) (done.length + pre.length)
          [' '].length "%20".toList = (done ++ pre ++ "%20".toList) ++ post := by
        have e1 : done ++ (pre ++ ' ' :: post) = (done ++ pre) ++ ' ' :: post := by simp
        have e2 : done.length + pre.length = (done ++ pre).length := by simp
        rw [replace, e1, e2, List.take_left, ← e2]
        have e3 : done.length + pre.length + [' '].length = (done ++ pre ++ [' ']).length := by
          simp only [List.length_append, List.length_cons, List.length_nil]
        have e4 : (done ++ pre) ++ ' ' :: post = (done ++ pre ++ [' ']) ++ post := by simp
        rw [e3, e4, List.drop_left]
      have hlen : done.length + pre.length + "%20".toList.length
          = (done ++ pre ++ "%20".toList).length := by
        simp only [List.length_append]
      have hpost : post.length ≤ n := by
        simp only [List.length_append, List.length_cons] at hn
        omega
      simp only [hrep, hlen]
      rw [ih (done ++ pre ++ "%20".toList) post hpost, escapeSpaces_append,
        escapeSpaces_of_not_mem pre hpre]
      simp [escapeSpaces]
    · have hfind : find (done ++ rest) [' '] done.length = none := by
        simp [find, findAux_single_none ' ' rest done.length hmem]
      rw [hfind, escapeSpaces_of_not_mem rest hmem]

/-- What `replaceIn(uri, " ", "%20")` returns. -/
theorem replaceIn_space (u : Str) : replaceIn u " ".toList "%20".toList = escapeSpaces u := by
  have h := replaceInLoop_space u.length [] u (le_refl _)
  simpa [replaceIn] using h

/-- An escaped string holds no space. -/
theorem not_mem_escapeSpaces (u : Str) : ' ' ∉ escapeSpaces u := by
  induction u with
  | nil => simp [escapeSpaces]
  | cons x xs ih =>
    by_cases hx : x = ' '
    · simp [escapeSpaces, hx, ih]
    · simp [escapeSpaces, hx, ih, Ne.symm hx]

/-- An escaped string is longer by two characters for each space. -/
theorem length_escapeSpaces (u : Str) :
    (escapeSpaces u).length = u.length + 2 * u.count ' ' := by
  induction u with
  | nil => rfl
  | cons x xs ih =>
    by_cases hx : x = ' '
    · subst hx
      simp [escapeSpaces, ih]
      omega
    · simp [escapeSpaces, hx, ih, List.count_cons]
      omega

/-- The non-space characters of a string occur in its escaped form, in the
same order. -/
theorem filter_sublist_escapeSpaces (u : Str) :
    (u.filter fun c => c != ' ').Sublist (escapeSpaces u) := by
  induction u with
  | nil => simp [escapeSpaces]
  | cons x xs ih =>
    by_cases hx : x = ' '
    · subst hx
      simp only [escapeSpaces, if_true]
      have : List.filter (fun c => c != ' ') (' ' :: xs) = List.filter (fun c => c != ' ') xs := by
        simp
      rw [this]
      exact ((ih.cons _).cons _).cons _
    · have : List.filter (fun c => c != ' ') (x :: xs)
          = x :: List.filter (fun c => c != ' ') xs := by
        simp [hx]
      rw [this]
      simp only [escapeSpaces, hx, if_false]
      exact ih.cons₂ _

/-- The loop of `replaceIn` reaches its `break` within as many turns as
there are characters left to scan, plus one. -/
theorem replaceInFuel_eq (sub : Str) (hsub : sub ≠ []) (other : Str) (fuel : Nat) (s : Str)
    (b : Nat) (hfuel : s.length - b + 1 ≤ fuel) :
    replaceInFuel fuel sub other s b = some (replaceInLoop sub hsub other s b) := by
  induction fuel generalizing s b with
  | zero => omega
  | succ fuel ih =>
    rw [replaceInLoop_eq, replaceInFuel]
    cases h : find s sub b with
    | none => rfl
    | some b1 =>
      have hm := replace_measure s sub other hsub b b1 h
      have hpos : 0 < sub.length := List.length_pos.mpr hsub
      exact ih _ _ (by omega)

/-- Every string is at most as long as the sum of the lengths of a list it
belongs to. -/
theorem length_le_sum_of_mem (units : List Str) (u : Str) (h : u ∈ units) :
    u.length ≤ (units.map List.length).sum := by
  induction units with
  | nil => simp at h
  | cons x xs ih =>
    rcases List.mem_cons.mp h with e | e
    · subst e
      simp
    · have := ih e
      simp only [List.map_cons, List.sum_cons]
      omega

/-! ## Properties of the formatted output -/

/-- The ten digit characters. -/
theorem digitChar_facts (k : Nat) (hk : k < 10) :
    (Nat.digitChar k).isDigit = true ∧ (Nat.digitChar k).toNat - '0'.toNat = k ∧
    Nat.digitChar k ≠ '.' ∧ Nat.digitChar k ≠ '-' ∧ Nat.digitChar k ≠ '%' ∧
    Nat.digitChar k ≠ nul := by
  interval_cases k <;> decide

/-- The accumulator of `natToDecAux` is a suffix of its result. -/
theorem natToDecAux_acc (fuel n : Nat) (acc : Str) :
    natToDecAux fuel n acc = natToDecAux fuel n [] ++ acc := by
  induction fuel generalizing n acc with
  | zero => simp [natToDecAux]
  | succ f ih =>
    unfold natToDecAux
    simp only
    split
    · simp
    · rw [ih (n / 10) (Nat.digitChar (n % 10) :: acc), ih (n / 10) [Nat.digitChar (n % 10)]]
      simp

/-- Any fuel above `n` gives the same digits. -/
theorem natToDecAux_fuel (n : Nat) : ∀ f g, n < f → n < g →
    natToDecAux f n [] = natToDecAux g n [] := by
  induction n using Nat.strong_induction_on with
  | _ n ih =>
    intro f g hf hg
    cases f with
    | zero => omega
    | succ f =>
      cases g with
      | zero => omega
      | succ g =>
        unfold natToDecAux
        simp only
        split
        · rfl
        · next hne =>
          have hlt : n / 10 < n := by omega
          rw [natToDecAux_acc f, natToDecAux_acc g, ih (n / 10) hlt f g (by omega) (by omega)]

/-- A number below ten is written with one digit. -/
theorem natToDec_lt (n : Nat) (h : n < 10) : natToDec n = [Nat.digitChar n] := by
  have h0 : n / 10 = 0 := by omega
  have h1 : n % 10 = n := by omega
  simp [natToDec, natToDecAux, h0, h1]

/-- A number from ten on is written as its tenth followed by its last digit. -/
theorem natToDec_ge (n : Nat) (h : 10 ≤ n) :
    natToDec n = natToDec (n / 10) ++ [Nat.digitChar (n % 10)] := by
  have h0 : n / 10 ≠ 0 := by omega
  unfold natToDec
  rw [natToDecAux]
  simp only [h0, if_false]
  rw [natToDecAux_acc, natToDecAux_fuel (n / 10) n (n / 10 + 1) (by omega) (by omega)]

/-- A number is written with digit characters only. -/
theorem natToDec_digits (n : Nat) : ∀ c ∈ natToDec n, ∃ k, k < 10 ∧ c = Nat.digitChar k := by
  induction n using Nat.strong_induction_on with
  | _ n ih =>
    by_cases h : n < 10
    · rw [natToDec_lt n h]
      intro c hc
      exact ⟨n, h, by simpa using hc⟩
    · rw [natToDec_ge n (by omega)]
      intro c hc
      rcases List.mem_append.mp hc with hc | hc
      · exact ih (n / 10) (by omega) c hc
      · exact ⟨n % 10, by omega, by simpa using hc⟩

/-- A number is written with at least one digit. -/
theorem natToDec_ne_nil (n : Nat) : natToDec n ≠ [] := by
  by_cases h : n < 10
  · simp [natToDec_lt n h]
  · simp [natToDec_ge n (by omega)]

/-- Reading digits goes through concatenation. -/
theorem parseDigits_append (s t : Str) (acc : Nat) :
    parseDigits (s ++ t) acc = (parseDigits s acc).bind (parseDigits t) := by
  induction s generalizing acc with
  | nil => simp [parseDigits]
  | cons c cs ih =>
    by_cases hc : c.isDigit = true
    · simp [parseDigits, hc, ih]
    · simp [parseDigits, hc]

/-- Reading back the digits of a number gives the number. -/
theorem parseDigits_natToDec (n : Nat) : parseDigits (natToDec n) 0 = some n := by
  induction n using Nat.strong_induction_on with
  | _ n ih =>
    by_cases h : n < 10
    · rw [natToDec_lt n h]
      have := digitChar_facts n h
      simp only [parseDigits, this.1, if_true, Option.some.injEq]
      simpa using this.2.1
    · rw [natToDec_ge n (by omega), parseDigits_append, ih (n / 10) (by omega)]
      have := digitChar_facts (n % 10) (by omega)
      simp only [Option.some_bind, parseDigits, this.1, this.2.1, if_true, Option.some.injEq]
      omega

/-- A padded number is written with digit characters only. -/
theorem padDec_digits (w n : Nat) : ∀ c ∈ padDec w n, ∃ k, k < 10 ∧ c = Nat.digitChar k := by
  induction w generalizing n with
  | zero => simp [padDec]
  | succ w ih =>
    intro c hc
    rw [padDec] at hc
    rcases List.mem_append.mp hc with hc | hc
    · exact ih (n / 10) c hc
    · exact ⟨n % 10, by omega, by simpa using hc⟩

/-- A padded number has the width asked for. -/
theorem length_padDec (w n : Nat) : (padDec w n).length = w := by
  induction w generalizing n with
  | zero => rfl
  | succ w ih => simp [padDec, ih]

/-- Reading back a padded number. -/
theorem parseDigits_padDec (w n acc : Nat) :
    parseDigits (padDec w n) acc = some (acc * 10 ^ w + n % 10 ^ w) := by
  induction w generalizing n acc with
  | zero => simp [padDec, parseDigits, Nat.mod_one]
  | succ w ih =>
    rw [padDec, parseDigits_append, ih]
    have := digitChar_facts (n % 10) (by omega)
    simp only [Option.some_bind, parseDigits, this.1, this.2.1, if_true, Option.some.injEq]
    have h1 : n % 10 ^ (w + 1) = 10 * (n / 10 % 10 ^ w) + n % 10 := by
      rw [pow_succ, Nat.mul_comm, Nat.mod_mul]
      omega
    rw [h1, pow_succ]
    ring

/-- Rounding to nearest moves a quotient by at most one half. -/
theorem roundHalfEven_bound (n d : Nat) (hd : 0 < d) :
    |((roundHalfEven n d : Nat) : Rat) - (n : Rat) / d| ≤ 1 / 2 := by
  have hdq : (0 : Rat) < d := by exact_mod_cast hd
  have hn : (n : Rat) = (d : Rat) * ((n / d : Nat) : Rat) + ((n % d : Nat) : Rat) := by
    exact_mod_cast (Nat.div_add_mod n d).symm
  have hdiv : (n : Rat) / d = ((n / d : Nat) : Rat) + ((n % d : Nat) : Rat) / d := by
    rw [hn]
    field_simp
    ring
  have hr : n % d < d := Nat.mod_lt n hd
  rw [hdiv, abs_le]
  unfold roundHalfEven
  simp only
  split
  · next h =>
    have h1 : (2 : Rat) * ((n % d : Nat) : Rat) < d := by exact_mod_cast h
    have h2 : ((n % d : Nat) : Rat) / d ≤ 1 / 2 := by
      rw [div_le_iff₀ hdq]
      linarith
    have h3 : (0 : Rat) ≤ ((n % d : Nat) : Rat) / d := by positivity
    constructor <;> linarith
  · split
    · next h0 h =>
      have h1 : (d : Rat) < 2 * ((n % d : Nat) : Rat) := by exact_mod_cast h
      have h2 : 1 / 2 ≤ ((n % d : Nat) : Rat) / d := by
        rw [le_div_iff₀ hdq]
        linarith
      have h3 : ((n % d : Nat) : Rat) / d ≤ 1 := by
        rw [div_le_iff₀ hdq]
        have : ((n % d : Nat) : Rat) < d := by exact_mod_cast hr
        linarith
      push_cast
      constructor <;> linarith
    · next h0 h =>
      have heq : 2 * (n % d) = d := by omega
      have h1 : (2 : Rat) * ((n % d : Nat) : Rat) = d := by exact_mod_cast heq
      have h2 : ((n % d : Nat) : Rat) / d = 1 / 2 := by
        rw [div_eq_iff (ne_of_gt hdq)]
        linarith
      split
      · constructor <;> linarith
      · push_cast
        constructor <;> linarith

/-- The rounding of a dyadic magnitude to a multiple of `1 / M`. -/
theorem scaled_bound (m M : Nat) (hM : 0 < M) (E : Int) :
    |(((match E with
        | Int.ofNat e => m * 2 ^ e * M
        | Int.negSucc e => roundHalfEven (m * M) (2 ^ (e + 1)) : Nat) : Rat)) / M
      - (m : Rat) * (2 : Rat) ^ E| ≤ 1 / (2 * M) := by
  have hpos : (0 : Rat) < M := by exact_mod_cast hM
  cases E with
  | ofNat e =>
    simp only [Int.ofNat_eq_coe, zpow_natCast]
    push_cast
    have : (m : Rat) * 2 ^ e * M / M = (m : Rat) * 2 ^ e := by
      field_simp
    rw [this, sub_self, abs_zero]
    positivity
  | negSucc e =>
    simp only [zpow_negSucc]
    have hb := roundHalfEven_bound (m * M) (2 ^ (e + 1)) (by positivity)
    push_cast at hb
    have key : ((roundHalfEven (m * M) (2 ^ (e + 1)) : Nat) : Rat) / M
        - (m : Rat) * ((2 : Rat) ^ (e + 1))⁻¹
        = (((roundHalfEven (m * M) (2 ^ (e + 1)) : Nat) : Rat)
          - (m : Rat) * M / 2 ^ (e + 1)) / M := by
      field_simp
      ring
    rw [key, abs_div, abs_of_pos hpos, div_le_iff₀ hpos]
    calc |((roundHalfEven (m * M) (2 ^ (e + 1)) : Nat) : Rat)
          - (m : Rat) * M / 2 ^ (e + 1)| ≤ 1 / 2 := hb
      _ = 1 / (2 * M) * M := by
        field_simp

/-- The millionths of a `double` are within half a millionth of its magnitude. -/
theorem millionths_bound (d : Double) :
    |((d.millionths : Nat) : Rat) / ((10 ^ 6 : Nat) : Rat)
        - (d.mantissa : Rat) * (2 : Rat) ^ d.exponent|
      ≤ 1 / (2 * ((10 ^ 6 : Nat) : Rat)) :=
  scaled_bound d.mantissa (10 ^ 6) (by norm_num) d.exponent

/-- A run of digits before a point is what `takeWhile` keeps. -/
theorem takeWhile_digits (a rest : Str)
    (ha : ∀ c ∈ a, ∃ k, k < 10 ∧ c = Nat.digitChar k) :
    (a ++ '.' :: rest).takeWhile (fun c => c != '.') = a ∧
    (a ++ '.' :: rest).dropWhile (fun c => c != '.') = '.' :: rest := by
  induction a with
  | nil => simp
  | cons x xs ih =>
    obtain ⟨k, hk, hx⟩ := ha x (List.mem_cons_self _ _)
    have hne : x ≠ '.' := hx ▸ (digitChar_facts k hk).2.2.1
    have := ih fun c hc => ha c (List.mem_cons_of_mem _ hc)
    simp [hne, this.1, this.2]

/-- Reading digits, a point and digits, with and without a sign. -/
theorem parseFixed_digits (a b : Str) (i f : Nat)
    (ha : ∀ c ∈ a, ∃ k, k < 10 ∧ c = Nat.digitChar k) (hne : a ≠ [])
    (hi : parseDigits a 0 = some i) (hf : parseDigits b 0 = some f) :
    parseFixed (a ++ '.' :: b) = some ((i : Rat) + (f : Rat) / (10 : Rat) ^ b.length) ∧
    parseFixed ('-' :: (a ++ '.' :: b))
      = some (-1 * ((i : Rat) + (f : Rat) / (10 : Rat) ^ b.length)) := by
  have hs := takeWhile_digits a b ha
  constructor
  · have hhead : a.head? ≠ some '-' := by
      cases a with
      | nil => exact absurd rfl hne
      | cons x xs =>
        obtain ⟨k, hk, hx⟩ := ha x (List.mem_cons_self _ _)
        have : x ≠ '-' := hx ▸ (digitChar_facts k hk).2.2.2.1
        simpa using this
    have hhead1 : (a ++ '.' :: b).head? ≠ some '-' := by
      cases a with
      | nil => exact absurd rfl hne
      | cons x xs => simpa using hhead
    simp only [parseFixed, hhead1, decide_False, Bool.false_eq_true, if_false, hs.1, hs.2, hi, hf,
      List.drop_one, List.tail_cons, one_mul]
  · simp [parseFixed, hs.1, hs.2, hi, hf]

/-- Reading back what `%lf` wrote gives the rounded millionths. -/
theorem parseFixed_formatDouble (d : Double) :
    parseFixed (formatDouble d)
      = some ((if d.negative then -1 else 1)
          * (((d.millionths : Nat) : Rat) / ((10 ^ 6 : Nat) : Rat))) := by
  have hp := parseFixed_digits (natToDec (d.millionths / 10 ^ 6))
    (padDec 6 (d.millionths % 10 ^ 6)) (d.millionths / 10 ^ 6) (d.millionths % 10 ^ 6)
    (natToDec_digits _) (natToDec_ne_nil _) (parseDigits_natToDec _)
    (by rw [parseDigits_padDec]; simp)
  rw [length_padDec] at hp
  have hval : (((d.millionths / 10 ^ 6 : Nat) : Rat)
      + ((d.millionths % 10 ^ 6 : Nat) : Rat) / (10 : Rat) ^ 6)
      = ((d.millionths : Nat) : Rat) / ((10 ^ 6 : Nat) : Rat) := by
    have h := Nat.div_add_mod d.millionths (10 ^ 6)
    have h' : ((10 ^ 6 : Nat) : Rat) * ((d.millionths / 10 ^ 6 : Nat) : Rat)
        + ((d.millionths % 10 ^ 6 : Nat) : Rat) = ((d.millionths : Nat) : Rat) := by
      exact_mod_cast h
    have hM : ((10 ^ 6 : Nat) : Rat) = (10 : Rat) ^ 6 := by norm_num
    rw [← h', hM]
    field_simp
    ring
  unfold formatDouble
  cases hneg : d.negative
  · simp only [Bool.false_eq_true, if_false, List.nil_append]
    rw [hp.1, hval]
    simp
  · simp only [if_true, List.singleton_append]
    rw [List.cons_append, hp.2, hval]

/-- Reading back what `%lf` wrote gives the `double` within half a
millionth. -/
theorem parseFixed_roundtrip (d : Double) :
    ∃ q, parseFixed (formatDouble d) = some q ∧ |q - d.value| ≤ 1 / (2 * 10 ^ 6) := by
  refine ⟨_, parseFixed_formatDouble d, ?_⟩
  have hb := millionths_bound d
  have hM : ((10 ^ 6 : Nat) : Rat) = (10 : Rat) ^ 6 := by norm_num
  rw [hM] at hb
  unfold Double.value
  rw [hM, ← mul_sub, abs_mul]
  have hs : |(if d.negative = true then (-1 : Rat) else 1)| = 1 := by
    split <;> simp
  rw [hs, one_mul]
  exact hb

/-- A run of one plain character is plain. -/
theorem plain_replicate (n : Nat) (c : Char) (h1 : c ≠ '%') (h2 : c ≠ nul) :
    Plain (List.replicate n c) := by
  constructor
  · intro hmem
    exact h1 (List.eq_of_mem_replicate hmem).symm
  · intro hmem
    exact h2 (List.eq_of_mem_replicate hmem).symm

/-- Plain strings concatenate to a plain string. -/
theorem plain_append (s t : Str) (hs : Plain s) (ht : Plain t) : Plain (s ++ t) := by
  unfold Plain at *
  simp only [List.mem_append, not_or]
  exact ⟨⟨hs.1, ht.1⟩, ⟨hs.2, ht.2⟩⟩

/-- A string of digits is plain. -/
theorem plain_of_digits (s : Str) (h : ∀ c ∈ s, ∃ k, k < 10 ∧ c = Nat.digitChar k) : Plain s := by
  constructor
  · intro hmem
    obtain ⟨k, hk, hc⟩ := h _ hmem
    exact (digitChar_facts k hk).2.2.2.2.1 hc.symm
  · intro hmem
    obtain ⟨k, hk, hc⟩ := h _ hmem
    exact (digitChar_facts k hk).2.2.2.2.2 hc.symm

/-- A written `int` is plain. -/
theorem plain_intToDec (i : Int) : Plain (intToDec i) := by
  unfold intToDec
  have h := plain_of_digits _ (natToDec_digits i.natAbs)
  split
  · exact plain_append ['-'] _ (by decide) h
  · exact h

/-- The separator is plain. -/
theorem plain_separator (s : Str) : Plain [separator s] := by
  unfold separator
  split <;> decide

/-- `sprintf` copies a plain part of the format. -/
theorem sprintf_plain (x rest : Str) (args : List Double) (hx : Plain x) :
    sprintf (x ++ rest) args = (sprintf rest args).map fun out => x ++ out := by
  induction x with
  | nil =>
    cases h : sprintf rest args <;> simp [Except.map, h]
  | cons c cs ih =>
    have hc1 : c ≠ '%' := fun e => hx.1 (e ▸ List.mem_cons_self _ _)
    have hc2 : c ≠ nul := fun e => hx.2 (e ▸ List.mem_cons_self _ _)
    have hcs : Plain cs :=
      ⟨fun e => hx.1 (List.mem_cons_of_mem _ e), fun e => hx.2 (List.mem_cons_of_mem _ e)⟩
    rw [List.cons_append, sprintf.eq_def]
    simp only [hc1, hc2, if_false, ih hcs]
    cases h : sprintf rest args <;> simp [Except.map]

/-- `sprintf` copies a plain format. -/
theorem sprintf_plain_nil (x : Str) (args : List Double) (hx : Plain x) :
    sprintf x args = Except.ok x := by
  have h := sprintf_plain x [] args hx
  simpa [sprintf, Except.map, pure, Except.pure] using h

/-- `sprintf` on a format with the four placeholders between plain parts. -/
theorem sprintf_bbox (x y : Str) (a b c d : Double) (hx : Plain x) (hy : Plain y) :
    sprintf (x ++ bboxPlaceholders ++ y) [a, b, c, d]
      = Except.ok (x ++ formatBounds ⟨a, b, c, d⟩ ++ y) := by
  rw [List.append_assoc, sprintf_plain x _ _ hx]
  have h : sprintf (bboxPlaceholders ++ y) [a, b, c, d]
      = Except.ok (formatBounds ⟨a, b, c, d⟩ ++ y) := by
    simp [bboxPlaceholders, sprintf, sprintf_plain_nil y [] hy, Except.map, formatBounds, nul]
  rw [h]
  simp [Except.map]

/-- The scanner passes over a plain part of the format. -/
theorem scanSpecs_plain (x rest : Str) (hx : Plain x) :
    scanSpecs (x ++ rest) none = scanSpecs rest none := by
  induction x with
  | nil => rfl
  | cons c cs ih =>
    have hc1 : c ≠ '%' := fun e => hx.1 (e ▸ List.mem_cons_self _ _)
    have hc2 : c ≠ nul := fun e => hx.2 (e ▸ List.mem_cons_self _ _)
    have hcs : Plain cs :=
      ⟨fun e => hx.1 (List.mem_cons_of_mem _ e), fun e => hx.2 (List.mem_cons_of_mem _ e)⟩
    rw [List.cons_append, scanSpecs]
    simp only [hc1, hc2, if_false, ih hcs]

/-- The conversion specifications of a format with the four placeholders
between plain parts. -/
theorem conversionSpecs_bbox (x y : Str) (hx : Plain x) (hy : Plain y) :
    conversionSpecs (x ++ bboxPlaceholders ++ y) = List.replicate 4 "%lf".toList := by
  unfold conversionSpecs
  rw [List.append_assoc, scanSpecs_plain x _ hx]
  have hy0 : scanSpecs y none = [] := by
    have := scanSpecs_plain y [] hy
    simpa [scanSpecs] using this
  simp [bboxPlaceholders, scanSpecs, isSpecModifier, nul, hy0]

/-! ## Properties of the initialisation -/

section InitializeLemmas

variable {SRS Profile Pattern : Type}

/-- With no capabilities document the source is returned as it was, but for
the capabilities URL and the log. -/
theorem initializeSource_unreadable (env : Env SRS Profile Pattern)
    (src : WMSSource Profile Pattern)
    (h : env.readCapabilities (capabilitiesURL src) = none) :
    initializeSource env src = Except.ok (requestCapabilities src) := by
  have h1 : env.readCapabilities (requestCapabilities src)._capabilitiesURL = none := h
  simp only [initializeSource, h1]
  rfl

/-- With a capabilities document the initialisation is the profile resolver
followed by the tile-service step. -/
theorem initializeSource_readable (env : Env SRS Profile Pattern)
    (src : WMSSource Profile Pattern) (caps : Capabilities)
    (h : env.readCapabilities (capabilitiesURL src) = some caps) :
    initializeSource env src =
      (resolveProfile env caps (buildPrototype (requestCapabilities src) caps)) >>= fun result =>
        pure (applyTileService env (buildPrototype (requestCapabilities src) caps) result) := by
  have h1 : env.readCapabilities (requestCapabilities src)._capabilitiesURL = some caps := h
  simp only [initializeSource, h1]

/-- The step of lines 203-233 when the tile service gives no pattern: the
resolver's profile is set and the WMS prototype only gets its suffix. -/
theorem applyTileService_no_override (env : Env SRS Profile Pattern)
    (src : WMSSource Profile Pattern) (result : Option Profile)
    (h : ∀ ts, env.readTileService (tileServiceURL src) = some ts →
      ts.getMatchingPatterns src._layers src._format src._style src._srs
        src._tile_size src._tile_size = []) :
    (applyTileService env src result).profile = result ∧
    (applyTileService env src result)._prototype
      = src._prototype ++ "&.".toList ++ src._format := by
  unfold applyTileService
  cases hts : env.readTileService (tileServiceURL src) with
  | none => simp [hts]
  | some ts => simp [hts, h ts hts]

/-- The step of lines 203-233 when the tile service gives at least one
pattern: profile and prototype come from the patterns. -/
theorem applyTileService_override (env : Env SRS Profile Pattern)
    (src : WMSSource Profile Pattern) (result : Option Profile)
    (ts : TileService Profile Pattern) (p : Pattern) (rest : List Pattern)
    (hts : env.readTileService (tileServiceURL src) = some ts)
    (hp : ts.getMatchingPatterns src._layers src._format src._style src._srs
        src._tile_size src._tile_size = p :: rest) :
    (applyTileService env src result).profile = ts.createProfile (p :: rest) ∧
    (applyTileService env src result)._prototype
      = src._prefix_ ++ [separator src._prefix_] ++ env.getPrototype p
          ++ "&.".toList ++ src._format := by
  unfold applyTileService
  simp [hts, hp]

/-- The log after the step of lines 203-233: the tile-service reader was
called, then `setProfile` with the profile the step settled on. -/
theorem applyTileService_calls (env : Env SRS Profile Pattern)
    (src : WMSSource Profile Pattern) (result : Option Profile) :
    (applyTileService env src result).calls
      = src.calls ++ [Call.readTileService (tileServiceURL src),
          Call.setProfile (applyTileService env src result).profile] := rfl

/-- The fields the later steps read from the source as it stands when the
profile resolver starts. -/
theorem buildPrototype_fields (src : WMSSource Profile Pattern) (caps : Capabilities) :
    (buildPrototype (requestCapabilities src) caps)._srs = resolveSRS src ∧
    (buildPrototype (requestCapabilities src) caps)._format = resolveFormat src caps ∧
    (buildPrototype (requestCapabilities src) caps)._layers = src._layers ∧
    (buildPrototype (requestCapabilities src) caps)._style = src._style ∧
    (buildPrototype (requestCapabilities src) caps)._tile_size = src._tile_size ∧
    (buildPrototype (requestCapabilities src) caps)._prefix_ = src._prefix_ ∧
    tileServiceURL (buildPrototype (requestCapabilities src) caps) = tileServiceURL src :=
  ⟨rfl, rfl, rfl, rfl, rfl, rfl, rfl⟩

/-- A valid SRS equivalent to the Mercator reference resolves to the global
Mercator profile, whatever the capabilities hold. -/
theorem resolveProfile_mercator (env : Env SRS Profile Pattern) (caps : Capabilities)
    (src : WMSSource Profile Pattern) (s : SRS)
    (hsrs : env.createSRS src._srs = some s)
    (hmerc : env.isEquivalentTo s (env.getSRS env.globalMercatorProfile) = true) :
    resolveProfile env caps src = Except.ok (some env.globalMercatorProfile) := by
  simp [resolveProfile, hsrs, wellKnownProfile, hmerc, layerProfile, lastResortProfile,
    bind, Except.bind, pure, Except.pure]

/-- A returning initialisation that read the capabilities went through the
profile resolver and the tile-service step. -/
theorem initializeSource_ok (env : Env SRS Profile Pattern)
    (src out : WMSSource Profile Pattern) (caps : Capabilities)
    (hcaps : env.readCapabilities (capabilitiesURL src) = some caps)
    (hinit : initializeSource env src = Except.ok out) :
    ∃ result,
      resolveProfile env caps (buildPrototype (requestCapabilities src) caps) = Except.ok result ∧
      out = applyTileService env (buildPrototype (requestCapabilities src) caps) result := by
  rw [initializeSource_readable env src caps hcaps] at hinit
  cases hres : resolveProfile env caps (buildPrototype (requestCapabilities src) caps) with
  | error e => simp [hres, bind, Except.bind] at hinit
  | ok result =>
    simp only [hres, bind, Except.bind, pure, Except.pure, Except.ok.injEq] at hinit
    exact ⟨result, rfl, hinit.symm⟩

/-- The initialisation returns as soon as the profile resolver does. -/
theorem initializeSource_of_resolveProfile (env : Env SRS Profile Pattern)
    (src : WMSSource Profile Pattern) (caps : Capabilities) (result : Option Profile)
    (hcaps : env.readCapabilities (capabilitiesURL src) = some caps)
    (hres : resolveProfile env caps (buildPrototype (requestCapabilities src) caps)
      = Except.ok result) :
    initializeSource env src
      = Except.ok (applyTileService env (buildPrototype (requestCapabilities src) caps) result) := by
  rw [initializeSource_readable env src caps hcaps, hres]
  rfl

/-- With a valid SRS the layer step returns. -/
theorem layerProfile_returns (env : Env SRS Profile Pattern) (caps : Capabilities)
    (layers srs : Str) (s : SRS) (result : Option Profile) :
    ∃ r, layerProfile env caps layers srs (some s) result = Except.ok r := by
  unfold layerProfile
  simp only []
  repeat' split
  all_goals exact ⟨_, rfl⟩

/-- With a valid SRS the last-resort step returns. -/
theorem lastResortProfile_returns (env : Env SRS Profile Pattern) (s : SRS)
    (result : Option Profile) :
    ∃ r, lastResortProfile env (some s) result = Except.ok r := by
  unfold lastResortProfile
  simp only []
  repeat' split
  all_goals exact ⟨_, rfl⟩

/-- With a valid SRS the profile resolver returns. -/
theorem resolveProfile_returns (env : Env SRS Profile Pattern) (caps : Capabilities)
    (src : WMSSource Profile Pattern) (s : SRS) (hsrs : env.createSRS src._srs = some s) :
    ∃ result, resolveProfile env caps src = Except.ok result := by
  unfold resolveProfile
  simp only [hsrs]
  obtain ⟨r1, h1⟩ := layerProfile_returns env caps src._layers src._srs s
    (wellKnownProfile env (some s))
  obtain ⟨r2, h2⟩ := lastResortProfile_returns env s r1
  exact ⟨r2, by rw [h1]; exact h2⟩

/-- With the capabilities read and a valid SRS the initialisation returns. -/
theorem initializeSource_returns (env : Env SRS Profile Pattern)
    (src : WMSSource Profile Pattern) (caps : Capabilities) (s : SRS)
    (hcaps : env.readCapabilities (capabilitiesURL src) = some caps)
    (hsrs : env.createSRS (resolveSRS src) = some s) :
    ∃ out, initializeSource env src = Except.ok out := by
  obtain ⟨result, hres⟩ := resolveProfile_returns env caps
    (buildPrototype (requestCapabilities src) caps) s hsrs
  exact ⟨_, initializeSource_of_resolveProfile env src caps result hcaps hres⟩

/-- The WMS request prototype as lines 135-147 leave it. -/
theorem buildPrototype_prototype (src : WMSSource Profile Pattern) (caps : Capabilities) :
    (buildPrototype (requestCapabilities src) caps)._prototype
      = src._prefix_ ++ [separator src._prefix_]
        ++ "SERVICE=WMS&VERSION=".toList ++ src._wms_version ++ "&REQUEST=GetMap".toList
        ++ "&LAYERS=".toList ++ src._layers
        ++ "&FORMAT=".toList
        ++ (if src._wms_format = [] then "image/".toList ++ resolveFormat src caps
            else src._wms_format)
        ++ "&STYLES=".toList ++ src._style
        ++ "&SRS=".toList ++ resolveSRS src
        ++ "&WIDTH=".toList ++ intToDec src._tile_size
        ++ "&HEIGHT=".toList ++ intToDec src._tile_size
        ++ "&BBOX=%lf,%lf,%lf,%lf".toList := rfl

/-- The tile-service step leaves the format alone. -/
theorem applyTileService_format (env : Env SRS Profile Pattern)
    (src : WMSSource Profile Pattern) (result : Option Profile) :
    (applyTileService env src result)._format = src._format := rfl

/-- A valid geographic SRS equivalent to neither well-known reference, with
the layer found, its native box all zero and its geographic box not: the
resolver takes what `Profile::create` returns for the geographic box, and the
global geodetic profile when that is null. -/
theorem resolveProfile_latLon (env : Env SRS Profile Pattern) (caps : Capabilities)
    (src : WMSSource Profile Pattern) (s : SRS) (layer : Layer)
    (hsrs : env.createSRS src._srs = some s)
    (hmerc : env.isEquivalentTo s (env.getSRS env.globalMercatorProfile) = false)
    (hgeod : env.isEquivalentTo s (env.getSRS env.globalGeodeticProfile) = false)
    (hgeo : env.isGeographic s = true)
    (hlayer : caps.getLayerByName src._layers = some layer)
    (hnative : layer.extents.allZero = true)
    (hlatlon : layer.latLonExtents.allZero = false) :
    resolveProfile env caps src
      = Except.ok (match env.createProfile src._srs layer.latLonExtents with
          | some p => some p
          | none => some env.globalGeodeticProfile) := by
  cases hc : env.createProfile src._srs layer.latLonExtents <;>
    simp [resolveProfile, hsrs, wellKnownProfile, hmerc, hgeod, layerProfile, lastResortProfile,
      hlayer, hgeo, hnative, hlatlon, hc, bind, Except.bind, pure, Except.pure]

/-- The WMS request prototype ends with the four placeholders. -/
theorem getMapPrototype_eq (src : WMSSource Profile Pattern) :
    getMapPrototype src = getMapQuery src ++ bboxPlaceholders := by
  have h : "&BBOX=%lf,%lf,%lf,%lf".toList = "&BBOX=".toList ++ bboxPlaceholders := by decide
  simp only [getMapPrototype, getMapQuery, h, List.append_assoc]

/-- The resolved format of a plain configuration is plain. -/
theorem plain_resolveFormat (src : WMSSource Profile Pattern) (caps : Capabilities)
    (h : PlainConfig src caps) : Plain (resolveFormat src caps) := by
  obtain ⟨-, -, -, -, hf, hs, -, -⟩ := h
  unfold resolveFormat
  by_cases h1 : src._format = []
  · by_cases h2 : caps.suggestExtension = []
    · simp only [h1, h2, if_true]
      decide
    · simp only [h1, h2, if_true, if_false]
      exact hs
  · simp only [h1, if_false]
    exact hf

/-- The resolved SRS identifier of a plain configuration is plain. -/
theorem plain_resolveSRS (src : WMSSource Profile Pattern) (caps : Capabilities)
    (h : PlainConfig src caps) : Plain (resolveSRS src) := by
  obtain ⟨-, -, -, -, -, -, -, hs⟩ := h
  unfold resolveSRS
  split
  · decide
  · exact hs

/-- The query of a plain configuration is plain. -/
theorem plain_getMapQuery (src : WMSSource Profile Pattern) (caps : Capabilities)
    (h : PlainConfig src caps) :
    Plain (getMapQuery (buildPrototype (requestCapabilities src) caps)) := by
  have hfmt := plain_resolveFormat src caps h
  have hsrs := plain_resolveSRS src caps h
  obtain ⟨hp, hv, hl, hst, -, -, hw, -⟩ := h
  have hF : Plain (if src._wms_format = [] then "image/".toList ++ resolveFormat src caps
      else src._wms_format) := by
    split
    · exact plain_append _ _ (by decide) hfmt
    · exact hw
  have hts := plain_intToDec src._tile_size
  have hsep := plain_separator src._prefix_
  have e : getMapQuery (buildPrototype (requestCapabilities src) caps)
      = src._prefix_ ++ [separator src._prefix_]
        ++ "SERVICE=WMS&VERSION=".toList ++ src._wms_version ++ "&REQUEST=GetMap".toList
        ++ "&LAYERS=".toList ++ src._layers
        ++ "&FORMAT=".toList
        ++ (if src._wms_format = [] then "image/".toList ++ resolveFormat src caps
            else src._wms_format)
        ++ "&STYLES=".toList ++ src._style
        ++ "&SRS=".toList ++ resolveSRS src
        ++ "&WIDTH=".toList ++ intToDec src._tile_size
        ++ "&HEIGHT=".toList ++ intToDec src._tile_size
        ++ "&BBOX=".toList := rfl
  rw [e]
  repeat' apply plain_append
  all_goals first | assumption | decide

/-- The final prototype on the standard WMS path. -/
theorem standard_prototype (env : Env SRS Profile Pattern)
    (src out : WMSSource Profile Pattern) (caps : Capabilities)
    (hcaps : env.readCapabilities (capabilitiesURL src) = some caps)
    (hinit : initializeSource env src = Except.ok out)
    (hts : ∀ ts, env.readTileService (tileServiceURL src) = some ts →
      ts.getMatchingPatterns src._layers (resolveFormat src caps) src._style (resolveSRS src)
        src._tile_size src._tile_size = []) :
    out._prototype
      = getMapQuery (buildPrototype (requestCapabilities src) caps) ++ bboxPlaceholders
        ++ ("&.".toList ++ resolveFormat src caps) := by
  obtain ⟨result, -, hout⟩ := initializeSource_ok env src out caps hcaps hinit
  rw [hout, (applyTileService_no_override env
    (buildPrototype (requestCapabilities src) caps) result hts).2]
  have e : (buildPrototype (requestCapabilities src) caps)._prototype
      = getMapPrototype (buildPrototype (requestCapabilities src) caps) := rfl
  rw [e, getMapPrototype_eq, List.append_assoc]
  rfl

/-- What `createURI` returns once the prototype is formatted. -/
theorem createURI_of_formatURI (env : Env SRS Profile Pattern)
    (src : WMSSource Profile Pattern) (bounds : Bounds) (u : Str)
    (hu : formatURI src._prototype bounds = Except.ok u) :
    createURI env src bounds
      = Except.ok (if env.containsServerAddress u then escapeSpaces u else u) := by
  simp only [createURI, hu, Except.map, urlize]
  split
  · rw [replaceIn_space]
  · rfl

/-- The formatting of a prototype with the four placeholders between plain
parts: the bounds are written in order, unless the buffer overflows. -/
theorem formatURI_bbox (x y : Str) (bounds : Bounds) (hx : Plain x) (hy : Plain y) :
    formatURI (x ++ bboxPlaceholders ++ y) bounds
      = if (x ++ formatBounds bounds ++ y).length < 2048
        then Except.ok (x ++ formatBounds bounds ++ y)
        else Except.error Fault.bufferOverflow := by
  unfold formatURI
  rw [sprintf_bbox x y _ _ _ _ hx hy]
  rfl

/-- A valid geographic SRS equivalent to neither well-known reference, with
the layer found and its native box not all zero: the resolver takes what
`Profile::create` returns for the native box, and the global geodetic profile
when that is null. -/
theorem resolveProfile_native_geographic (env : Env SRS Profile Pattern) (caps : Capabilities)
    (src : WMSSource Profile Pattern) (s : SRS) (layer : Layer)
    (hsrs : env.createSRS src._srs = some s)
    (hmerc : env.isEquivalentTo s (env.getSRS env.globalMercatorProfile) = false)
    (hgeod : env.isEquivalentTo s (env.getSRS env.globalGeodeticProfile) = false)
    (hgeo : env.isGeographic s = true)
    (hlayer : caps.getLayerByName src._layers = some layer)
    (hnative : layer.extents.allZero = false) :
    resolveProfile env caps src
      = Except.ok (match env.createProfile src._srs layer.extents with
          | some p => some p
          | none => some env.globalGeodeticProfile) := by
  cases hc : env.createProfile src._srs layer.extents <;>
    simp [resolveProfile, hsrs, wellKnownProfile, hmerc, hgeod, layerProfile, lastResortProfile,
      hlayer, hgeo, hnative, hc, bind, Except.bind, pure, Except.pure]

/-- A valid geographic SRS equivalent to neither well-known reference, with
the layer found and both its boxes all zero: the resolver takes the global
geodetic profile. -/
theorem resolveProfile_zero_geographic (env : Env SRS Profile Pattern) (caps : Capabilities)
    (src : WMSSource Profile Pattern) (s : SRS) (layer : Layer)
    (hsrs : env.createSRS src._srs = some s)
    (hmerc : env.isEquivalentTo s (env.getSRS env.globalMercatorProfile) = false)
    (hgeod : env.isEquivalentTo s (env.getSRS env.globalGeodeticProfile) = false)
    (hgeo : env.isGeographic s = true)
    (hlayer : caps.getLayerByName src._layers = some layer)
    (hnative : layer.extents.allZero = true)
    (hlatlon : layer.latLonExtents.allZero = true) :
    resolveProfile env caps src = Except.ok (some env.globalGeodeticProfile) := by
  simp [resolveProfile, hsrs, wellKnownProfile, hmerc, hgeod, layerProfile, lastResortProfile,
    hlayer, hgeo, hnative, hlatlon, bind, Except.bind, pure, Except.pure]

/-- A valid SRS that is not geographic and equivalent to neither well-known
reference, with the layer found: the resolver takes what `Profile::create`
returns for the native box, null included. -/
theorem resolveProfile_projected (env : Env SRS Profile Pattern) (caps : Capabilities)
    (src : WMSSource Profile Pattern) (s : SRS) (layer : Layer)
    (hsrs : env.createSRS src._srs = some s)
    (hmerc : env.isEquivalentTo s (env.getSRS env.globalMercatorProfile) = false)
    (hgeod : env.isEquivalentTo s (env.getSRS env.globalGeodeticProfile) = false)
    (hgeo : env.isGeographic s = false)
    (hlayer : caps.getLayerByName src._layers = some layer) :
    resolveProfile env caps src = Except.ok (env.createProfile src._srs layer.extents) := by
  cases hc : env.createProfile src._srs layer.extents <;>
    simp [resolveProfile, hsrs, wellKnownProfile, hmerc, hgeod, layerProfile, lastResortProfile,
      hlayer, hgeo, hc, bind, Except.bind, pure, Except.pure]

/-- A valid SRS equivalent to neither well-known reference, with no layer of
the configured name: the resolver takes the global geodetic profile for a
geographic SRS and nothing otherwise. -/
theorem resolveProfile_no_layer (env : Env SRS Profile Pattern) (caps : Capabilities)
    (src : WMSSource Profile Pattern) (s : SRS)
    (hsrs : env.createSRS src._srs = some s)
    (hmerc : env.isEquivalentTo s (env.getSRS env.globalMercatorProfile) = false)
    (hgeod : env.isEquivalentTo s (env.getSRS env.globalGeodeticProfile) = false)
    (hlayer : caps.getLayerByName src._layers = none) :
    resolveProfile env caps src
      = Except.ok (if env.isGeographic s = true then some env.globalGeodeticProfile else none) := by
  cases hgeo : env.isGeographic s <;>
    simp [resolveProfile, hsrs, wellKnownProfile, hmerc, hgeod, layerProfile, lastResortProfile,
      hlayer, hgeo, bind, Except.bind, pure, Except.pure]

/-- With an SRS identifier the factory cannot resolve, the resolver
dereferences the null reference: at line 174 when the layer is found, at line
197 when it is not. -/
theorem resolveProfile_null (env : Env SRS Profile Pattern) (caps : Capabilities)
    (src : WMSSource Profile Pattern) (hsrs : env.createSRS src._srs = none) :
    resolveProfile env caps src = Except.error Fault.nullDereference := by
  cases hlayer : caps.getLayerByName src._layers <;>
    simp [resolveProfile, hsrs, wellKnownProfile, layerProfile, lastResortProfile, hlayer,
      bind, Except.bind, pure, Except.pure, throw, throwThe, MonadExceptOf.throw]

/-- With the capabilities read and an SRS identifier the factory cannot
resolve, the initialisation ends in the null dereference. -/
theorem initializeSource_null (env : Env SRS Profile Pattern)
    (src : WMSSource Profile Pattern) (caps : Capabilities)
    (hcaps : env.readCapabilities (capabilitiesURL src) = some caps)
    (hsrs : env.createSRS (resolveSRS src) = none) :
    initializeSource env src = Except.error Fault.nullDereference := by
  rw [initializeSource_readable env src caps hcaps,
    resolveProfile_null env caps (buildPrototype (requestCapabilities src) caps) hsrs]
  rfl

/-- A number below `10 ^ k` is written with at most `k` digits. -/
theorem length_natToDec_le (k n : Nat) (hk : 1 ≤ k) (hn : n < 10 ^ k) :
    (natToDec n).length ≤ k := by
  induction k generalizing n with
  | zero => omega
  | succ k ih =>
    by_cases h : n < 10
    · rw [natToDec_lt n h]
      simp
    · rw [natToDec_ge n (by omega)]
      have hk1 : 1 ≤ k := by
        rcases Nat.eq_zero_or_pos k with h0 | h0
        · subst h0
          simp at hn
          omega
        · exact h0
      have hdiv : n / 10 < 10 ^ k := by
        rw [Nat.div_lt_iff_lt_mul (by norm_num)]
        rw [pow_succ] at hn
        exact hn
      have := ih (n / 10) hk1 hdiv
      simp only [List.length_append, List.length_singleton]
      omega

/-- Rounding to nearest exceeds the quotient by one at most. -/
theorem roundHalfEven_le (n d : Nat) : roundHalfEven n d ≤ n / d + 1 := by
  unfold roundHalfEven
  simp only
  split
  · omega
  · split
    · omega
    · split <;> omega

/-- The finite binary64 magnitudes are below `10 ^ 309`. -/
theorem binary64_lt : (2 : Nat) ^ 53 * 2 ^ 971 < 10 ^ 309 := by
  set_option exponentiation.threshold 2000 in
  norm_num

set_option exponentiation.threshold 2000 in
/-- The integer part of a finite binary64 magnitude is below `10 ^ 309`. -/
theorem millionths_lt (d : Double) (h : d.isBinary64) : d.millionths / 10 ^ 6 < 10 ^ 309 := by
  obtain ⟨hm, he⟩ := h
  unfold Double.millionths
  cases hE : d.exponent with
  | ofNat e =>
    simp only
    rw [hE] at he
    have he1 : e ≤ 971 := by
      have he2 : (e : Int) ≤ 971 := he
      omega
    rw [Nat.mul_div_cancel _ (by norm_num : 0 < 10 ^ 6)]
    have h1 : 2 ^ e ≤ 2 ^ 971 := Nat.pow_le_pow_right (Nat.succ_pos 1) he1
    calc d.mantissa * 2 ^ e ≤ d.mantissa * 2 ^ 971 := Nat.mul_le_mul_left _ h1
      _ < 2 ^ 53 * 2 ^ 971 := Nat.mul_lt_mul_of_pos_right hm (by positivity)
      _ < 10 ^ 309 := binary64_lt
  | negSucc e =>
    simp only
    have h1 := roundHalfEven_le (d.mantissa * 10 ^ 6) (2 ^ (e + 1))
    have h2 : d.mantissa * 10 ^ 6 / 2 ^ (e + 1) ≤ d.mantissa * 10 ^ 6 := Nat.div_le_self _ _
    have h3 : roundHalfEven (d.mantissa * 10 ^ 6) (2 ^ (e + 1)) / 10 ^ 6
        ≤ (d.mantissa * 10 ^ 6 + 1) / 10 ^ 6 := Nat.div_le_div_right (by omega)
    have h4 : (d.mantissa * 10 ^ 6 + 1) / 10 ^ 6 ≤ d.mantissa + 1 := by
      rw [Nat.div_le_iff_le_mul_add_pred (by norm_num)]
      omega
    have h5 : (2 : Nat) ^ 53 + 1 < 10 ^ 309 :=
      lt_of_le_of_lt (by omega) binary64_lt
    omega

/-- A finite binary64 value is written by `%lf` in at most 317 characters. -/
theorem length_formatDouble_le (d : Double) (h : d.isBinary64) :
    (formatDouble d).length ≤ 317 := by
  have h1 := length_natToDec_le 309 (d.millionths / 10 ^ 6) (by norm_num) (millionths_lt d h)
  have h2 := length_padDec 6 (d.millionths % 10 ^ 6)
  unfold formatDouble
  cases d.negative <;>
    simp only [List.length_append, List.length_cons, List.length_nil, h2, if_true, if_false,
      Bool.false_eq_true] <;>
    omega

/-- Four finite binary64 bounds are written in at most 1271 characters. -/
theorem length_formatBounds_le (b : Bounds)
    (h : b.minx.isBinary64 ∧ b.miny.isBinary64 ∧ b.maxx.isBinary64 ∧ b.maxy.isBinary64) :
    (formatBounds b).length ≤ 1271 := by
  have h1 := length_formatDouble_le b.minx h.1
  have h2 := length_formatDouble_le b.miny h.2.1
  have h3 := length_formatDouble_le b.maxx h.2.2.1
  have h4 := length_formatDouble_le b.maxy h.2.2.2
  unfold formatBounds
  simp only [List.length_append, List.length_cons]
  omega

/-- A prototype of at most 791 characters, made of the four placeholders
between plain parts, is formatted within the buffer for all finite binary64
bounds. -/
theorem formatURI_fits (x y : Str) (bounds : Bounds) (hx : Plain x) (hy : Plain y)
    (hb : bounds.minx.isBinary64 ∧ bounds.miny.isBinary64 ∧ bounds.maxx.isBinary64 ∧
      bounds.maxy.isBinary64)
    (hlen : (x ++ bboxPlaceholders ++ y).length ≤ 791) :
    formatURI (x ++ bboxPlaceholders ++ y) bounds
      = Except.ok (x ++ formatBounds bounds ++ y) ∧
    (x ++ formatBounds bounds ++ y).length ≤ 2047 := by
  have h1 := length_formatBounds_le bounds hb
  have h2 : bboxPlaceholders.length = 15 := by decide
  have h3 : (x ++ formatBounds bounds ++ y).length ≤ 2047 := by
    simp only [List.length_append, h2] at hlen ⊢
    omega
  refine ⟨?_, h3⟩
  rw [formatURI_bbox x y bounds hx hy, if_pos (by omega)]

/-- On the standard WMS path with a plain configuration, a final prototype
of at most 791 characters is formatted within the buffer of `createURI` for
all finite binary64 bounds. -/
theorem standard_formatURI_fits (env : Env SRS Profile Pattern)
    (src out : WMSSource Profile Pattern) (caps : Capabilities) (bounds : Bounds)
    (hcaps : env.readCapabilities (capabilitiesURL src) = some caps)
    (hinit : initializeSource env src = Except.ok out)
    (hplain : PlainConfig src caps)
    (hts : ∀ ts, env.readTileService (tileServiceURL src) = some ts →
      ts.getMatchingPatterns src._layers (resolveFormat src caps) src._style (resolveSRS src)
        src._tile_size src._tile_size = [])
    (hb : bounds.minx.isBinary64 ∧ bounds.miny.isBinary64 ∧ bounds.maxx.isBinary64 ∧
      bounds.maxy.isBinary64)
    (hlen : out._prototype.length ≤ 791) :
    ∃ u, formatURI out._prototype bounds = Except.ok u ∧ u.length ≤ 2047 := by
  have hproto := standard_prototype env src out caps hcaps hinit hts
  have hx := plain_getMapQuery src caps hplain
  have hy : Plain ("&.".toList ++ resolveFormat src caps) :=
    plain_append _ _ (by decide) (plain_resolveFormat src caps hplain)
  rw [hproto] at hlen ⊢
  exact ⟨_, formatURI_fits _ _ bounds hx hy hb hlen⟩

/-- The `float` assigned from the constant `0.3048`. -/
theorem toFloat_feet :
    (decimalConstant 3048 10000).toFloat = ⟨false, 10227391, -25⟩ := by
  decide

/-- The scale factor for the unit `ft` is the binary32 value next to
`0.3048`. -/
theorem scaleFactor_feet : scaleFactor "ft".toList = 10227391 / 33554432 := by
  have h : scaleFactorFloat "ft".toList = ⟨false, 10227391, -25⟩ := by
    rw [scaleFactorFloat, if_pos rfl, toFloat_feet]
  rw [scaleFactor, h]
  norm_num [Double.value]

/-- The scale factor for every other unit is one. -/
theorem scaleFactor_other (unit : Str) (h : unit ≠ "ft".toList) : scaleFactor unit = 1 := by
  have h1 : scaleFactorFloat unit = ⟨false, 8388608, -23⟩ := by
    rw [scaleFactorFloat, if_neg h]
    decide
  rw [scaleFactor, h1]
  norm_num [Double.value]

/-- What `createHeightField` hands to the converter once `createURI` has
yielded a URI. -/
theorem createHeightField_eq {Image : Type} (env : Env SRS Profile Pattern)
    (readImageFile : Str → Option Image) (src : WMSSource Profile Pattern)
    (bounds : Bounds) (uri : Str) (huri : createURI env src bounds = Except.ok uri) :
    createHeightField env readImageFile src bounds
      = Except.ok (readImageFile uri, scaleFactor src._elevation_unit) := by
  simp [createHeightField, createImage, huri, Except.map]

/-- A valid SRS equivalent to the SRS of the global geodetic profile, and
not to that of the global Mercator profile, resolves to the global geodetic
profile, whatever the capabilities hold. -/
theorem resolveProfile_geodetic (env : Env SRS Profile Pattern) (caps : Capabilities)
    (src : WMSSource Profile Pattern) (s : SRS)
    (hsrs : env.createSRS src._srs = some s)
    (hmerc : env.isEquivalentTo s (env.getSRS env.globalMercatorProfile) = false)
    (hgeod : env.isEquivalentTo s (env.getSRS env.globalGeodeticProfile) = true) :
    resolveProfile env caps src = Except.ok (some env.globalGeodeticProfile) := by
  simp [resolveProfile, hsrs, wellKnownProfile, hmerc, hgeod, layerProfile, lastResortProfile,
    bind, Except.bind, pure, Except.pure]

end InitializeLemmas

/-! ## The claims -/

section Claims

variable {SRS Profile Pattern : Type}

/-- C1, as amended: when the capabilities document is read, the SRS is valid
and equivalent to the SRS of the global Mercator profile, and the tile service
gives no matching pattern (no document, or an empty answer), the
initialisation returns and the profile it sets is the global Mercator profile,
whatever the capabilities report. -/
theorem initialize_mercator_without_override (env : Env SRS Profile Pattern)
    (src : WMSSource Profile Pattern) (caps : Capabilities) (s : SRS)
    (hcaps : env.readCapabilities (capabilitiesURL src) = some caps)
    (hsrs : env.createSRS (resolveSRS src) = some s)
    (hmerc : env.isEquivalentTo s (env.getSRS env.globalMercatorProfile) = true)
    (hts : ∀ ts, env.readTileService (tileServiceURL src) = some ts →
      ts.getMatchingPatterns src._layers (resolveFormat src caps) src._style (resolveSRS src)
        src._tile_size src._tile_size = []) :
    ∃ out, initializeSource env src = Except.ok out ∧
      out.profile = some env.globalMercatorProfile ∧
      out.calls.getLast? = some (Call.setProfile (some env.globalMercatorProfile)) := by
  rw [initializeSource_readable env src caps hcaps,
    resolveProfile_mercator env caps _ s hsrs hmerc]
  refine ⟨_, rfl, ?_, ?_⟩
  · exact (applyTileService_no_override env _ _ hts).1
  · rw [applyTileService_calls, (applyTileService_no_override env _ _ hts).1]
    simp

/-- C1, witness: the Mercator source in the environment without tile
service. -/
theorem initialize_mercator_without_override_witness :
    plainEnv.readCapabilities (capabilitiesURL mercatorSource) = some worldCapabilities ∧
    plainEnv.createSRS (resolveSRS mercatorSource) = some DemoSRS.sphericalMercator ∧
    plainEnv.isEquivalentTo DemoSRS.sphericalMercator
      (plainEnv.getSRS plainEnv.globalMercatorProfile) = true ∧
    ∃ out, initializeSource plainEnv mercatorSource = Except.ok out ∧
      out.profile = some plainEnv.globalMercatorProfile ∧
      out.calls.getLast? = some (Call.setProfile (some plainEnv.globalMercatorProfile)) :=
  ⟨rfl, by decide, by decide,
    initialize_mercator_without_override plainEnv mercatorSource worldCapabilities
      DemoSRS.sphericalMercator rfl (by decide) (by decide)
      (fun ts h => by simp [plainEnv, demoEnv] at h)⟩

/-- C1, as stated, fails: with the SRS equivalent to the Mercator reference
and the capabilities read, a tile service that answers with patterns makes
the profile the one it creates, not the global Mercator profile. -/
theorem mercator_profile_overridden :
    (tiledEnv.readCapabilities (capabilitiesURL mercatorSource)).isSome = true ∧
    tiledEnv.createSRS (resolveSRS mercatorSource) = some DemoSRS.sphericalMercator ∧
    tiledEnv.isEquivalentTo DemoSRS.sphericalMercator
      (tiledEnv.getSRS tiledEnv.globalMercatorProfile) = true ∧
    (initializeSource tiledEnv mercatorSource).toOption.map (fun out => out.profile)
      = some (some (DemoProfile.tiled
          ["request=GetMap&layers=global_mosaic&bbox=%lf,%lf,%lf,%lf".toList,
           "request=GetMap&layers=global_mosaic_base&bbox=%lf,%lf,%lf,%lf".toList])) ∧
    (initializeSource tiledEnv mercatorSource).toOption.map (fun out => out.profile)
      ≠ some (some tiledEnv.globalMercatorProfile) := by
  decide

/-- C2: when the capabilities reader returns no document, the initialisation
of a freshly constructed source returns with no profile set, `setProfile`
never called (the only outside call is the capabilities read), the request
prototype still empty, and format and SRS as configured. -/
theorem initialize_without_capabilities (env : Env SRS Profile Pattern) (conf : Config)
    (h : env.readCapabilities
      (capabilitiesURL (WMSSource.new conf : WMSSource Profile Pattern)) = none) :
    ∃ out, initializeSource env (WMSSource.new conf) = Except.ok out ∧
      out.profile = none ∧
      out.calls = [Call.readCapabilities
        (capabilitiesURL (WMSSource.new conf : WMSSource Profile Pattern))] ∧
      (∀ p, Call.setProfile p ∉ out.calls) ∧
      out._prototype = [] ∧
      out._tileService.isNone = true ∧
      out._format = conf.value "format" ∧
      out._srs = conf.value "srs" ∧
      getExtension out = conf.value "format" := by
  refine ⟨_, initializeSource_unreadable env _ h, rfl, rfl, ?_, rfl, rfl, rfl, rfl, rfl⟩
  intro p hp
  simp [requestCapabilities, WMSSource.new] at hp

/-- C2, witness: base URL `http://x/wms`, capabilities unreachable. -/
theorem initialize_without_capabilities_witness :
    unreachableEnv.readCapabilities
      (capabilitiesURL (WMSSource.new (demoConfig [("url", "http://x/wms")])
        : WMSSource DemoProfile Str)) = none ∧
    ∃ out, initializeSource unreachableEnv (WMSSource.new (demoConfig [("url", "http://x/wms")]))
        = Except.ok out ∧
      out.profile = none ∧
      out.calls = [Call.readCapabilities
        (capabilitiesURL (WMSSource.new (demoConfig [("url", "http://x/wms")])
          : WMSSource DemoProfile Str))] ∧
      (∀ p, Call.setProfile p ∉ out.calls) ∧
      out._prototype = [] ∧
      out._tileService.isNone = true ∧
      out._format = (demoConfig [("url", "http://x/wms")]).value "format" ∧
      out._srs = (demoConfig [("url", "http://x/wms")]).value "srs" ∧
      getExtension out = (demoConfig [("url", "http://x/wms")]).value "format" :=
  ⟨rfl, initialize_without_capabilities unreachableEnv (demoConfig [("url", "http://x/wms")]) rfl⟩

/-- C3: when the initialisation returns with the capabilities read and the
tile service answers the query with a non-empty pattern list, the final
request prototype is base URL, separator, the prototype fragment of the first
pattern, then `&.` and the resolved format; neither the WMS GetMap prototype
nor the later patterns occur in it. -/
theorem initialize_prototype_from_first_pattern (env : Env SRS Profile Pattern)
    (src out : WMSSource Profile Pattern) (caps : Capabilities)
    (ts : TileService Profile Pattern) (p : Pattern) (rest : List Pattern)
    (hcaps : env.readCapabilities (capabilitiesURL src) = some caps)
    (hts : env.readTileService (tileServiceURL src) = some ts)
    (hp : ts.getMatchingPatterns src._layers (resolveFormat src caps) src._style (resolveSRS src)
        src._tile_size src._tile_size = p :: rest)
    (hinit : initializeSource env src = Except.ok out) :
    out._prototype
      = src._prefix_ ++ [separator src._prefix_] ++ env.getPrototype p
          ++ "&.".toList ++ resolveFormat src caps := by
  rw [initializeSource_readable env src caps hcaps] at hinit
  cases hres : resolveProfile env caps (buildPrototype (requestCapabilities src) caps) with
  | error e => simp [hres, bind, Except.bind] at hinit
  | ok result =>
    simp only [hres, bind, Except.bind, pure, Except.pure, Except.ok.injEq] at hinit
    rw [← hinit]
    exact (applyTileService_override env (buildPrototype (requestCapabilities src) caps)
      result ts p rest hts hp).2

/-- C3, witness: the Mercator source with a tile service answering with two
patterns; the prototype is built from the first one. -/
theorem initialize_prototype_from_first_pattern_witness :
    ∃ out, initializeSource tiledEnv mercatorSource = Except.ok out ∧
      out._prototype
        = "http://x/wms?request=GetMap&layers=global_mosaic&bbox=%lf,%lf,%lf,%lf&.jpg".toList :=
  ⟨(applyTileService tiledEnv
      (buildPrototype (requestCapabilities mercatorSource) worldCapabilities)
      (some DemoProfile.globalMercator)), rfl,
    initialize_prototype_from_first_pattern tiledEnv mercatorSource _ worldCapabilities
      (demoTileService
        ["request=GetMap&layers=global_mosaic&bbox=%lf,%lf,%lf,%lf".toList,
         "request=GetMap&layers=global_mosaic_base&bbox=%lf,%lf,%lf,%lf".toList])
      "request=GetMap&layers=global_mosaic&bbox=%lf,%lf,%lf,%lf".toList
      ["request=GetMap&layers=global_mosaic_base&bbox=%lf,%lf,%lf,%lf".toList]
      rfl rfl rfl rfl⟩

/-- C4, as amended: whenever `createURI` yields a URI, `createHeightField`
calls the converter with the image read from that URI (present or absent) and
with a scale factor that is, when the elevation unit is `ft`, the `float`
assigned from the constant `0.3048`, which is `10227391 / 33554432` and lies
`79 / 20971520000` above `0.3048`, and that is exactly 1 for every other unit;
the unit `m` and an unset unit, which the constructor turns into `m`, give 1. -/
theorem createHeightField_scale {Image : Type} (env : Env SRS Profile Pattern)
    (readImageFile : Str → Option Image) (src : WMSSource Profile Pattern)
    (bounds : Bounds) (uri : Str) (conf : Config)
    (huri : createURI env src bounds = Except.ok uri) :
    createHeightField env readImageFile src bounds
      = Except.ok (readImageFile uri,
          if src._elevation_unit = "ft".toList then (10227391 : Rat) / 33554432 else 1) ∧
    scaleFactorFloat "ft".toList = (decimalConstant 3048 10000).toFloat ∧
    scaleFactor "ft".toList = 10227391 / 33554432 ∧
    (10227391 : Rat) / 33554432 - 3048 / 10000 = 79 / 20971520000 ∧
    scaleFactor "m".toList = 1 ∧
    (∀ unit : Str, unit ≠ "ft".toList → scaleFactor unit = 1) ∧
    (conf.value "elevation_unit" = [] →
      (WMSSource.new conf : WMSSource Profile Pattern)._elevation_unit = "m".toList ∧
      scaleFactor (WMSSource.new conf : WMSSource Profile Pattern)._elevation_unit = 1) := by
  refine ⟨?_, rfl, scaleFactor_feet, by norm_num, scaleFactor_other _ (by decide),
    scaleFactor_other, ?_⟩
  · rw [createHeightField_eq env readImageFile src bounds uri huri]
    by_cases h : src._elevation_unit = "ft".toList
    · rw [if_pos h, h, scaleFactor_feet]
    · rw [if_neg h, scaleFactor_other _ h]
  · intro hconf
    have hunit : (WMSSource.new conf : WMSSource Profile Pattern)._elevation_unit
        = "m".toList := by
      simp [WMSSource.new, hconf]
    exact ⟨hunit, by rw [hunit]; exact scaleFactor_other _ (by decide)⟩

/-- C4, witness: a source in feet whose image is absent. -/
theorem createHeightField_scale_witness :
    createURI plainEnv feetSource (Bounds.ofInts (-180) (-90) 180 90)
      = Except.ok "tiles.wms?BBOX=-180.000000,-90.000000,180.000000,90.000000&.tif".toList ∧
    createHeightField plainEnv noImage feetSource (Bounds.ofInts (-180) (-90) 180 90)
      = Except.ok (none, (10227391 : Rat) / 33554432) :=
  ⟨rfl, (createHeightField_scale plainEnv noImage feetSource (Bounds.ofInts (-180) (-90) 180 90)
    "tiles.wms?BBOX=-180.000000,-90.000000,180.000000,90.000000&.tif".toList
    (demoConfig []) (by rfl)).1⟩

/-- C4, as stated, fails: for a source in feet the scale factor passed to the
converter is the `float` `10227391 / 33554432`, not `0.3048`. -/
theorem scale_factor_is_not_decimal :
    feetSource._elevation_unit = "ft".toList ∧
    createHeightField plainEnv noImage feetSource globe
      = Except.ok (none, (10227391 : Rat) / 33554432) ∧
    (10227391 : Rat) / 33554432 ≠ 3048 / 10000 := by
  refine ⟨rfl, ?_, by norm_num⟩
  rw [createHeightField_eq plainEnv noImage feetSource globe
    "tiles.wms?BBOX=-180.000000,-90.000000,180.000000,90.000000&.tif".toList (by rfl)]
  have h : feetSource._elevation_unit = "ft".toList := rfl
  rw [h, scaleFactor_feet]
  rfl

/-- C5: when the initialisation returns with the capabilities read, the
format `getExtension` returns is, for a source with no format configured, the
suggested extension of the document when that is not empty and `png`
otherwise, and for a source with a format configured that format; with no
`wms_format` configured the GetMap prototype of lines 135-147 carries
`&FORMAT=image/` followed by that format between the layers and the styles.
The initialisation does return whenever the SRS identifier is valid. -/
theorem initialize_format (env : Env SRS Profile Pattern)
    (src out : WMSSource Profile Pattern) (caps : Capabilities)
    (hcaps : env.readCapabilities (capabilitiesURL src) = some caps)
    (hinit : initializeSource env src = Except.ok out) :
    (src._format = [] →
      getExtension out
        = if caps.suggestExtension = [] then "png".toList else caps.suggestExtension) ∧
    (src._format ≠ [] → getExtension out = src._format) ∧
    (src._wms_format = [] →
      (buildPrototype (requestCapabilities src) caps)._prototype
        = src._prefix_ ++ [separator src._prefix_]
          ++ "SERVICE=WMS&VERSION=".toList ++ src._wms_version
          ++ "&REQUEST=GetMap&LAYERS=".toList ++ src._layers
          ++ "&FORMAT=image/".toList ++ getExtension out
          ++ "&STYLES=".toList ++ src._style
          ++ "&SRS=".toList ++ resolveSRS src
          ++ "&WIDTH=".toList ++ intToDec src._tile_size
          ++ "&HEIGHT=".toList ++ intToDec src._tile_size
          ++ "&BBOX=%lf,%lf,%lf,%lf".toList) ∧
    (∀ s, env.createSRS (resolveSRS src) = some s →
      ∃ out1, initializeSource env src = Except.ok out1) := by
  obtain ⟨result, -, hout⟩ := initializeSource_ok env src out caps hcaps hinit
  have hfmt : getExtension out = resolveFormat src caps := by
    rw [hout]
    rfl
  refine ⟨?_, ?_, ?_, fun s hs => initializeSource_returns env src caps s hcaps hs⟩
  · intro h
    rw [hfmt]
    simp only [resolveFormat, h, if_true]
  · intro h
    rw [hfmt]
    simp [resolveFormat, h]
  · intro h
    rw [hfmt, buildPrototype_prototype, if_pos h]
    simp only [List.append_assoc]
    rfl

/-- C5, witness: base URL `http://x/wms?`, layer `L1`, no format, the
document suggesting `jpg`. -/
theorem initialize_format_witness :
    ∃ out, initializeSource plainEnv defaultSource = Except.ok out ∧
      getExtension out = "jpg".toList ∧
      (buildPrototype (requestCapabilities defaultSource) worldCapabilities)._prototype
        = ("http://x/wms?&SERVICE=WMS&VERSION=1.1.1&REQUEST=GetMap&LAYERS=L1"
          ++ "&FORMAT=image/jpg&STYLES=&SRS=EPSG:4326&WIDTH=256&HEIGHT=256"
          ++ "&BBOX=%lf,%lf,%lf,%lf").toList :=
  ⟨applyTileService plainEnv (buildPrototype (requestCapabilities defaultSource) worldCapabilities)
      (some DemoProfile.globalGeodetic), by rfl,
    ((initialize_format plainEnv defaultSource _ worldCapabilities rfl (by rfl)).1 rfl).trans
      (by decide),
    by decide⟩

/-- C6, as amended: with the capabilities read, a valid SRS that is not
equivalent to the global Mercator reference and no tile-service override, the
initialisation returns, and: if the SRS is geographic and not equivalent to
the global geodetic reference either, and the layer of the configured name is
found with its native box all zero and its geographic box not, the profile set
is the one `Profile::create` returns for the SRS identifier and the geographic
box, and the global geodetic profile if `Profile::create` returns null; if the
SRS is equivalent to the global geodetic reference, the profile set is the
global geodetic profile, whatever the layer reports. -/
theorem initialize_profile_from_latLon (env : Env SRS Profile Pattern)
    (src : WMSSource Profile Pattern) (caps : Capabilities) (s : SRS)
    (hcaps : env.readCapabilities (capabilitiesURL src) = some caps)
    (hsrs : env.createSRS (resolveSRS src) = some s)
    (hmerc : env.isEquivalentTo s (env.getSRS env.globalMercatorProfile) = false)
    (hts : ∀ ts, env.readTileService (tileServiceURL src) = some ts →
      ts.getMatchingPatterns src._layers (resolveFormat src caps) src._style (resolveSRS src)
        src._tile_size src._tile_size = []) :
    ∃ out, initializeSource env src = Except.ok out ∧
      (env.isEquivalentTo s (env.getSRS env.globalGeodeticProfile) = false →
        env.isGeographic s = true →
        ∀ layer, caps.getLayerByName src._layers = some layer →
          layer.extents.allZero = true → layer.latLonExtents.allZero = false →
          out.profile
            = match env.createProfile (resolveSRS src) layer.latLonExtents with
              | some p => some p
              | none => some env.globalGeodeticProfile) ∧
      (env.isEquivalentTo s (env.getSRS env.globalGeodeticProfile) = true →
        out.profile = some env.globalGeodeticProfile) := by
  obtain ⟨out, hinit⟩ := initializeSource_returns env src caps s hcaps hsrs
  obtain ⟨result, hres, hout⟩ := initializeSource_ok env src out caps hcaps hinit
  have hprofile : out.profile = result := by
    rw [hout]
    exact (applyTileService_no_override env _ _ hts).1
  refine ⟨out, hinit, ?_, ?_⟩
  · intro hgeod hgeo layer hlayer hnative hlatlon
    have h := resolveProfile_latLon env caps (buildPrototype (requestCapabilities src) caps)
      s layer hsrs hmerc hgeod hgeo hlayer hnative hlatlon
    rw [hres] at h
    rw [hprofile, Except.ok.inj h]
    rfl
  · intro hgeod
    have h := resolveProfile_geodetic env caps (buildPrototype (requestCapabilities src) caps)
      s hsrs hmerc hgeod
    rw [hres] at h
    rw [hprofile, Except.ok.inj h]

/-- C6, witness: SRS `EPSG:4269`, layer `L1` with native box `(0,0,0,0)` and
geographic box `(-180,-90,180,90)`. -/
theorem initialize_profile_from_latLon_witness :
    ∃ out, initializeSource plainEnv nad83Source = Except.ok out ∧
      out.profile
        = some (DemoProfile.custom DemoSRS.nad83 (Bounds.ofInts (-180) (-90) 180 90)) := by
  obtain ⟨out, hout, h, -⟩ := initialize_profile_from_latLon plainEnv nad83Source
    worldCapabilities DemoSRS.nad83 rfl (by decide) (by decide)
    (fun ts h => by simp [plainEnv, demoEnv] at h)
  exact ⟨out, hout, (h (by decide) (by decide)
    { extents := Bounds.ofInts 0 0 0 0, latLonExtents := Bounds.ofInts (-180) (-90) 180 90 }
    (by decide) (by decide) (by decide)).trans (by decide)⟩

/-- C6, as stated, fails: with the SRS `EPSG:4326` equivalent to the SRS of
the global geodetic profile, the layer `L1` with native box `(0,0,0,0)` and
geographic box `(-180,-90,180,90)` and no tile service, the profile set is the
global geodetic profile, not the profile created from the SRS identifier and
the geographic box. -/
theorem wgs84_profile_is_global_geodetic :
    (worldCapabilities.getLayerByName wgs84Source._layers).map (fun l => l.extents)
      = some (Bounds.ofInts 0 0 0 0) ∧
    (worldCapabilities.getLayerByName wgs84Source._layers).map (fun l => l.latLonExtents)
      = some (Bounds.ofInts (-180) (-90) 180 90) ∧
    plainEnv.createProfile "EPSG:4326".toList (Bounds.ofInts (-180) (-90) 180 90)
      = some (DemoProfile.custom DemoSRS.wgs84 (Bounds.ofInts (-180) (-90) 180 90)) ∧
    (initializeSource plainEnv wgs84Source).toOption.map (fun out => out.profile)
      = some (some DemoProfile.globalGeodetic) ∧
    (initializeSource plainEnv wgs84Source).toOption.map (fun out => out.profile)
      ≠ some (plainEnv.createProfile "EPSG:4326".toList (Bounds.ofInts (-180) (-90) 180 90)) := by
  decide

/-- C10, as amended: when the capabilities document cannot be read, the
initialisation returns without calling the tile-service reader: the only
outside call is the capabilities read, the tile-service URL stays as
configured, and neither profile nor prototype is adopted, whatever the
tile-service reader would have returned. -/
theorem initialize_no_probe_without_capabilities (env : Env SRS Profile Pattern)
    (src : WMSSource Profile Pattern)
    (hcaps : env.readCapabilities (capabilitiesURL src) = none) :
    ∃ out, initializeSource env src = Except.ok out ∧
      out.calls = src.calls ++ [Call.readCapabilities (capabilitiesURL src)] ∧
      (∀ url, Call.readTileService url ∈ out.calls → Call.readTileService url ∈ src.calls) ∧
      out._tileServiceURL = src._tileServiceURL ∧
      out._tileService.isSome = src._tileService.isSome ∧
      out.profile = src.profile ∧
      out._prototype = src._prototype := by
  refine ⟨_, initializeSource_unreadable env src hcaps, rfl, ?_, rfl, rfl, rfl, rfl⟩
  intro url hmem
  simpa [requestCapabilities] using hmem

/-- C10, witness: the Mercator source with the capabilities unreachable. -/
theorem initialize_no_probe_without_capabilities_witness :
    ∃ out, initializeSource unreachableEnv mercatorSource = Except.ok out ∧
      out.calls = mercatorSource.calls
        ++ [Call.readCapabilities (capabilitiesURL mercatorSource)] ∧
      (∀ url, Call.readTileService url ∈ out.calls →
        Call.readTileService url ∈ mercatorSource.calls) ∧
      out._tileServiceURL = mercatorSource._tileServiceURL ∧
      out._tileService.isSome = mercatorSource._tileService.isSome ∧
      out.profile = mercatorSource.profile ∧
      out._prototype = mercatorSource._prototype :=
  initialize_no_probe_without_capabilities unreachableEnv mercatorSource rfl

/-- C10, as stated, fails: with the capabilities unreachable and a readable
tile-service document that answers with a pattern, the initialisation adopts
neither the profile nor the prototype of the tile service; profile and
prototype stay unset. -/
theorem tile_service_not_probed :
    (unreachableEnv.readCapabilities (capabilitiesURL mercatorSource)).isNone = true ∧
    ((unreachableEnv.readTileService (tileServiceURL mercatorSource)).map fun ts =>
        ts.getMatchingPatterns mercatorSource._layers mercatorSource._format
          mercatorSource._style mercatorSource._srs mercatorSource._tile_size
          mercatorSource._tile_size)
      = some ["request=GetMap&layers=global_mosaic&bbox=%lf,%lf,%lf,%lf".toList] ∧
    (initializeSource unreachableEnv mercatorSource).toOption.map
        (fun out => (out.profile, out._prototype))
      = some (none, []) := by
  decide

/-- C9: when the formatting of the prototype yields the string `u`,
`createURI` returns `u` with every space replaced by `%20` and nothing else
changed if `u` holds a server address (the result has no space, its length is
that of `u` plus two for each space, and the non-space characters of `u` occur
in it in the same order), and `u` itself otherwise. -/
theorem createURI_escapes_spaces (env : Env SRS Profile Pattern)
    (src : WMSSource Profile Pattern) (bounds : Bounds) (u : Str)
    (hu : formatURI src._prototype bounds = Except.ok u) :
    (env.containsServerAddress u = true →
      createURI env src bounds = Except.ok (escapeSpaces u) ∧
      ' ' ∉ escapeSpaces u ∧
      (escapeSpaces u).length = u.length + 2 * u.count ' ' ∧
      (u.filter fun c => c != ' ').Sublist (escapeSpaces u)) ∧
    (env.containsServerAddress u = false → createURI env src bounds = Except.ok u) := by
  constructor
  · intro h
    refine ⟨?_, not_mem_escapeSpaces u, length_escapeSpaces u, filter_sublist_escapeSpaces u⟩
    rw [createURI_of_formatURI env src bounds u hu, if_pos h]
  · intro h
    rw [createURI_of_formatURI env src bounds u hu, h]
    rfl

set_option maxRecDepth 100000 in
/-- C9, witness: the layer name `a b` behind an `http` address. -/
theorem createURI_escapes_spaces_witness :
    formatURI (initialized plainEnv spacedSource)._prototype globe
      = Except.ok ("http://x/wms?SERVICE=WMS&VERSION=1.1.1&REQUEST=GetMap&LAYERS=a b"
          ++ "&FORMAT=image/jpg&STYLES=&SRS=EPSG:4326&WIDTH=256&HEIGHT=256"
          ++ "&BBOX=-180.000000,-90.000000,180.000000,90.000000&.jpg").toList ∧
    createURI plainEnv (initialized plainEnv spacedSource) globe
      = Except.ok ("http://x/wms?SERVICE=WMS&VERSION=1.1.1&REQUEST=GetMap&LAYERS=a%20b"
          ++ "&FORMAT=image/jpg&STYLES=&SRS=EPSG:4326&WIDTH=256&HEIGHT=256"
          ++ "&BBOX=-180.000000,-90.000000,180.000000,90.000000&.jpg").toList :=
  ⟨by rfl,
    ((createURI_escapes_spaces plainEnv (initialized plainEnv spacedSource) globe
      ("http://x/wms?SERVICE=WMS&VERSION=1.1.1&REQUEST=GetMap&LAYERS=a b"
          ++ "&FORMAT=image/jpg&STYLES=&SRS=EPSG:4326&WIDTH=256&HEIGHT=256"
          ++ "&BBOX=-180.000000,-90.000000,180.000000,90.000000&.jpg").toList
      (by rfl)).1 (by rfl)).1.trans (by rfl)⟩

/-- C7, as amended: when the strings that go into the prototype hold neither
a percent sign nor a NUL, and the first matching tile pattern, if there is
one, has a prototype fragment made of the four placeholders `%lf,%lf,%lf,%lf`
between two such strings, the final prototype of a returning initialisation
holds exactly four conversion specifications, all `%lf`: it is the four
placeholders between two plain strings, and `sprintf` writes the four bounds
in the order minx, miny, maxx, maxy in their place. -/
theorem initialize_prototype_conversions (env : Env SRS Profile Pattern)
    (src out : WMSSource Profile Pattern) (caps : Capabilities)
    (hcaps : env.readCapabilities (capabilitiesURL src) = some caps)
    (hinit : initializeSource env src = Except.ok out)
    (hplain : PlainConfig src caps)
    (hfrag : ∀ ts p rest, env.readTileService (tileServiceURL src) = some ts →
      ts.getMatchingPatterns src._layers (resolveFormat src caps) src._style (resolveSRS src)
        src._tile_size src._tile_size = p :: rest →
      ∃ x y, Plain x ∧ Plain y ∧ env.getPrototype p = x ++ bboxPlaceholders ++ y) :
    conversionSpecs out._prototype = List.replicate 4 "%lf".toList ∧
    ∃ x y, Plain x ∧ Plain y ∧ out._prototype = x ++ bboxPlaceholders ++ y ∧
      ∀ b : Bounds, sprintf out._prototype [b.minx, b.miny, b.maxx, b.maxy]
        = Except.ok (x ++ formatBounds b ++ y) := by
  have hfmt := plain_resolveFormat src caps hplain
  have hsuffix : Plain ("&.".toList ++ resolveFormat src caps) :=
    plain_append _ _ (by decide) hfmt
  have key : ∃ x y, Plain x ∧ Plain y ∧ out._prototype = x ++ bboxPlaceholders ++ y := by
    cases hts : env.readTileService (tileServiceURL src) with
    | none =>
      refine ⟨_, _, plain_getMapQuery src caps hplain, hsuffix,
        standard_prototype env src out caps hcaps hinit ?_⟩
      intro ts h
      rw [hts] at h
      cases h
    | some ts =>
      cases hp : ts.getMatchingPatterns src._layers (resolveFormat src caps) src._style
          (resolveSRS src) src._tile_size src._tile_size with
      | nil =>
        refine ⟨_, _, plain_getMapQuery src caps hplain, hsuffix,
          standard_prototype env src out caps hcaps hinit ?_⟩
        intro ts1 h
        rw [hts] at h
        cases h
        exact hp
      | cons p rest =>
        obtain ⟨x, y, hx, hy, hxy⟩ := hfrag ts p rest hts hp
        obtain ⟨result, -, hout⟩ := initializeSource_ok env src out caps hcaps hinit
        refine ⟨src._prefix_ ++ [separator src._prefix_] ++ x,
          y ++ ("&.".toList ++ resolveFormat src caps),
          plain_append _ _ (plain_append _ _ hplain.1 (plain_separator _)) hx,
          plain_append _ _ hy hsuffix, ?_⟩
        rw [hout, (applyTileService_override env (buildPrototype (requestCapabilities src) caps)
          result ts p rest hts hp).2, hxy]
        simp only [List.append_assoc]
        rfl
  obtain ⟨x, y, hx, hy, hxy⟩ := key
  refine ⟨?_, x, y, hx, hy, hxy, ?_⟩
  · rw [hxy]
    exact conversionSpecs_bbox x y hx hy
  · intro b
    rw [hxy]
    exact sprintf_bbox x y _ _ _ _ hx hy

/-- C7, witness: the default source, whose prototype comes from the WMS
path. -/
theorem initialize_prototype_conversions_witness :
    ∃ out, initializeSource plainEnv defaultSource = Except.ok out ∧
      conversionSpecs out._prototype = List.replicate 4 "%lf".toList :=
  ⟨applyTileService plainEnv (buildPrototype (requestCapabilities defaultSource) worldCapabilities)
      (some DemoProfile.globalGeodetic), by rfl,
    (initialize_prototype_conversions plainEnv defaultSource _ worldCapabilities rfl (by rfl)
      (by decide) (fun ts p rest h => by simp [plainEnv, demoEnv] at h)).1⟩

set_option maxRecDepth 100000 in
/-- C7, as stated, fails: a layer name holding `%s` stays in the prototype
as a fifth conversion specification, and one that is not floating-point. -/
theorem prototype_with_extra_conversion :
    (initializeSource plainEnv percentSource).toOption.map
        (fun out => conversionSpecs out._prototype)
      = some ["%s".toList, "%lf".toList, "%lf".toList, "%lf".toList, "%lf".toList] ∧
    (initializeSource plainEnv percentSource).toOption.map
        (fun out => sprintf out._prototype [globe.minx, globe.miny, globe.maxx, globe.maxy])
      = some (Except.error Fault.formatMismatch) := by
  constructor <;> rfl

/-- C8, as amended: on the standard WMS path (no tile-service override), with
configuration strings holding neither a percent sign nor a NUL, the final
prototype is the query, the four placeholders and the format suffix; for every
bounding box, when the prototype with the bounds written in six-decimal
notation in the order minx, miny, maxx, maxy (`filledPrototype`) is shorter
than 2048 characters, `createURI` returns it, with its spaces escaped if it
holds a server address, hence unchanged if it holds no space or no server
address; when it is longer, `sprintf` overflows the buffer.  Each of the four
numbers reads back to within half a millionth of the bound. -/
theorem createURI_standard (env : Env SRS Profile Pattern)
    (src out : WMSSource Profile Pattern) (caps : Capabilities) (bounds : Bounds)
    (hcaps : env.readCapabilities (capabilitiesURL src) = some caps)
    (hinit : initializeSource env src = Except.ok out)
    (hplain : PlainConfig src caps)
    (hts : ∀ ts, env.readTileService (tileServiceURL src) = some ts →
      ts.getMatchingPatterns src._layers (resolveFormat src caps) src._style (resolveSRS src)
        src._tile_size src._tile_size = []) :
    out._prototype
      = getMapQuery (buildPrototype (requestCapabilities src) caps) ++ bboxPlaceholders
        ++ ("&.".toList ++ resolveFormat src caps) ∧
    ((filledPrototype (buildPrototype (requestCapabilities src) caps) bounds).length < 2048 →
      createURI env out bounds
        = Except.ok
          (if env.containsServerAddress
              (filledPrototype (buildPrototype (requestCapabilities src) caps) bounds)
            then escapeSpaces
              (filledPrototype (buildPrototype (requestCapabilities src) caps) bounds)
            else filledPrototype (buildPrototype (requestCapabilities src) caps) bounds) ∧
      ((env.containsServerAddress
            (filledPrototype (buildPrototype (requestCapabilities src) caps) bounds) = false ∨
          ' ' ∉ filledPrototype (buildPrototype (requestCapabilities src) caps) bounds) →
        createURI env out bounds
          = Except.ok (filledPrototype (buildPrototype (requestCapabilities src) caps) bounds))) ∧
    (2048 ≤ (filledPrototype (buildPrototype (requestCapabilities src) caps) bounds).length →
      createURI env out bounds = Except.error Fault.bufferOverflow) ∧
    (∀ d ∈ [bounds.minx, bounds.miny, bounds.maxx, bounds.maxy],
      ∃ q, parseFixed (formatDouble d) = some q ∧ |q - d.value| ≤ 1 / (2 * 10 ^ 6)) := by
  have hproto := standard_prototype env src out caps hcaps hinit hts
  have hx := plain_getMapQuery src caps hplain
  have hy : Plain ("&.".toList ++ resolveFormat src caps) :=
    plain_append _ _ (by decide) (plain_resolveFormat src caps hplain)
  have hfill : filledPrototype (buildPrototype (requestCapabilities src) caps) bounds
      = getMapQuery (buildPrototype (requestCapabilities src) caps) ++ formatBounds bounds
        ++ ("&.".toList ++ resolveFormat src caps) := by
    simp only [filledPrototype, List.append_assoc]
    rfl
  have hfmt := formatURI_bbox _ _ bounds hx hy
  rw [← hproto, ← hfill] at hfmt
  refine ⟨hproto, ?_, ?_, fun d _ => parseFixed_roundtrip d⟩
  · intro hlen
    rw [if_pos hlen] at hfmt
    have hcreate := createURI_of_formatURI env out bounds _ hfmt
    refine ⟨hcreate, ?_⟩
    intro hor
    rw [hcreate]
    rcases hor with h | h
    · rw [h]
      rfl
    · rw [escapeSpaces_of_not_mem _ h, ite_self]
  · intro hlen
    rw [if_neg (Nat.not_lt.mpr hlen)] at hfmt
    simp [createURI, hfmt, Except.map]

set_option maxRecDepth 100000 in
/-- C8, witness: the default source and the whole globe; the layer name
holds no space, so the URI is the filled prototype. -/
theorem createURI_standard_witness :
    ∃ out, initializeSource plainEnv defaultSource = Except.ok out ∧
      createURI plainEnv out globe
        = Except.ok ("http://x/wms?&SERVICE=WMS&VERSION=1.1.1&REQUEST=GetMap&LAYERS=L1"
          ++ "&FORMAT=image/jpg&STYLES=&SRS=EPSG:4326&WIDTH=256&HEIGHT=256"
          ++ "&BBOX=-180.000000,-90.000000,180.000000,90.000000&.jpg").toList :=
  ⟨applyTileService plainEnv (buildPrototype (requestCapabilities defaultSource) worldCapabilities)
      (some DemoProfile.globalGeodetic), by rfl,
    (((createURI_standard plainEnv defaultSource _ worldCapabilities globe rfl (by rfl)
      (by decide) (fun ts h => by simp [plainEnv, demoEnv] at h)).2.1 (by decide)).2
        (Or.inr (by decide))).trans (by rfl)⟩

set_option maxRecDepth 100000 in
/-- C8, as stated, fails: with the layer name `a b` behind an `http` address
the prototype is built on the standard path, yet the string `createURI`
returns is not the prototype with its bounding box filled in: the space of the
layer name has become `%20`. -/
theorem createURI_changes_spaces :
    filledPrototype (buildPrototype (requestCapabilities spacedSource) worldCapabilities) globe
      = ("http://x/wms?SERVICE=WMS&VERSION=1.1.1&REQUEST=GetMap&LAYERS=a b"
          ++ "&FORMAT=image/jpg&STYLES=&SRS=EPSG:4326&WIDTH=256&HEIGHT=256"
          ++ "&BBOX=-180.000000,-90.000000,180.000000,90.000000&.jpg").toList ∧
    createURI plainEnv (initialized plainEnv spacedSource) globe
      = Except.ok ("http://x/wms?SERVICE=WMS&VERSION=1.1.1&REQUEST=GetMap&LAYERS=a%20b"
          ++ "&FORMAT=image/jpg&STYLES=&SRS=EPSG:4326&WIDTH=256&HEIGHT=256"
          ++ "&BBOX=-180.000000,-90.000000,180.000000,90.000000&.jpg").toList ∧
    createURI plainEnv (initialized plainEnv spacedSource) globe
      ≠ Except.ok
        (filledPrototype (buildPrototype (requestCapabilities spacedSource) worldCapabilities)
          globe) := by
  have hu : formatURI (initialized plainEnv spacedSource)._prototype globe
      = Except.ok ("http://x/wms?SERVICE=WMS&VERSION=1.1.1&REQUEST=GetMap&LAYERS=a b"
          ++ "&FORMAT=image/jpg&STYLES=&SRS=EPSG:4326&WIDTH=256&HEIGHT=256"
          ++ "&BBOX=-180.000000,-90.000000,180.000000,90.000000&.jpg").toList := by rfl
  have hc := createURI_of_formatURI plainEnv (initialized plainEnv spacedSource) globe _ hu
  have hf : filledPrototype
      (buildPrototype (requestCapabilities spacedSource) worldCapabilities) globe
      = ("http://x/wms?SERVICE=WMS&VERSION=1.1.1&REQUEST=GetMap&LAYERS=a b"
          ++ "&FORMAT=image/jpg&STYLES=&SRS=EPSG:4326&WIDTH=256&HEIGHT=256"
          ++ "&BBOX=-180.000000,-90.000000,180.000000,90.000000&.jpg").toList := by rfl
  refine ⟨hf, hc.trans (by rfl), ?_⟩
  rw [hc, hf]
  intro h
  have h1 := Except.ok.inj h
  revert h1
  decide

/-- C11: for an initialisation that returns with the capabilities read, when
the tile service answers the query with a non-empty pattern list the profile
finally set is the one the tile service creates from the whole list, whatever
profile the resolver had found; when there is no tile-service document or its
answer is empty, the profile set is the resolver's and the prototype is the
WMS GetMap prototype of lines 135-147, followed by the format suffix of line
228. -/
theorem initialize_tile_service_override (env : Env SRS Profile Pattern)
    (src out : WMSSource Profile Pattern) (caps : Capabilities)
    (hcaps : env.readCapabilities (capabilitiesURL src) = some caps)
    (hinit : initializeSource env src = Except.ok out) :
    ∃ result,
      resolveProfile env caps (buildPrototype (requestCapabilities src) caps)
        = Except.ok result ∧
      (∀ ts p rest, env.readTileService (tileServiceURL src) = some ts →
        ts.getMatchingPatterns src._layers (resolveFormat src caps) src._style (resolveSRS src)
          src._tile_size src._tile_size = p :: rest →
        out.profile = ts.createProfile (p :: rest) ∧
        out.calls.getLast? = some (Call.setProfile (ts.createProfile (p :: rest)))) ∧
      ((∀ ts, env.readTileService (tileServiceURL src) = some ts →
          ts.getMatchingPatterns src._layers (resolveFormat src caps) src._style (resolveSRS src)
            src._tile_size src._tile_size = []) →
        out.profile = result ∧
        out.calls.getLast? = some (Call.setProfile result) ∧
        out._prototype
          = getMapPrototype (buildPrototype (requestCapabilities src) caps)
            ++ "&.".toList ++ resolveFormat src caps) := by
  obtain ⟨result, hres, hout⟩ := initializeSource_ok env src out caps hcaps hinit
  refine ⟨result, hres, ?_, ?_⟩
  · intro ts p rest hts hp
    have h := (applyTileService_override env (buildPrototype (requestCapabilities src) caps)
      result ts p rest hts hp).1
    rw [hout]
    refine ⟨h, ?_⟩
    rw [applyTileService_calls, h]
    simp
  · intro hnone
    have h := applyTileService_no_override env (buildPrototype (requestCapabilities src) caps)
      result hnone
    rw [hout]
    refine ⟨h.1, ?_, h.2⟩
    rw [applyTileService_calls, h.1]
    simp

/-- C11, witness: the Mercator source with a tile service answering with
two patterns; the profile is the one created from both. -/
theorem initialize_tile_service_override_witness :
    ∃ out, initializeSource tiledEnv mercatorSource = Except.ok out ∧
      out.profile = some (DemoProfile.tiled
        ["request=GetMap&layers=global_mosaic&bbox=%lf,%lf,%lf,%lf".toList,
         "request=GetMap&layers=global_mosaic_base&bbox=%lf,%lf,%lf,%lf".toList]) := by
  refine ⟨applyTileService tiledEnv
      (buildPrototype (requestCapabilities mercatorSource) worldCapabilities)
      (some DemoProfile.globalMercator), rfl, ?_⟩
  obtain ⟨result, -, h, -⟩ := initialize_tile_service_override tiledEnv mercatorSource
    (applyTileService tiledEnv
      (buildPrototype (requestCapabilities mercatorSource) worldCapabilities)
      (some DemoProfile.globalMercator)) worldCapabilities rfl rfl
  exact (h (demoTileService
      ["request=GetMap&layers=global_mosaic&bbox=%lf,%lf,%lf,%lf".toList,
       "request=GetMap&layers=global_mosaic_base&bbox=%lf,%lf,%lf,%lf".toList])
    "request=GetMap&layers=global_mosaic&bbox=%lf,%lf,%lf,%lf".toList
    ["request=GetMap&layers=global_mosaic_base&bbox=%lf,%lf,%lf,%lf".toList] rfl rfl).1

/-- C12: for a source constructed from a configuration, an initialisation
that returns with the capabilities read and no tile-service override leaves as
request prototype the base URL, the separator, `SERVICE=WMS&VERSION=` and the
version (the configured one, `1.1.1` when none is configured),
`&REQUEST=GetMap&LAYERS=` and the layers, `&FORMAT=` and the configured
`wms_format` or else `image/` and the resolved format, `&STYLES=` and the
style, `&SRS=` and the SRS (`EPSG:4326` when none is configured), `&WIDTH=`
and `&HEIGHT=` with the same tile size, `&BBOX=%lf,%lf,%lf,%lf`, then `&.` and
the resolved format.  The initialisation does return whenever the SRS
identifier is valid. -/
theorem initialize_standard_prototype (env : Env SRS Profile Pattern) (conf : Config)
    (out : WMSSource Profile Pattern) (caps : Capabilities)
    (hcaps : env.readCapabilities
      (capabilitiesURL (WMSSource.new conf : WMSSource Profile Pattern)) = some caps)
    (hinit : initializeSource env (WMSSource.new conf) = Except.ok out)
    (hts : ∀ ts,
      env.readTileService (tileServiceURL (WMSSource.new conf : WMSSource Profile Pattern))
        = some ts →
      ts.getMatchingPatterns (conf.value "layers")
        (resolveFormat (WMSSource.new conf : WMSSource Profile Pattern) caps)
        (conf.value "style") (resolveSRS (WMSSource.new conf : WMSSource Profile Pattern))
        (WMSSource.new conf : WMSSource Profile Pattern)._tile_size
        (WMSSource.new conf : WMSSource Profile Pattern)._tile_size = []) :
    out._prototype
      = conf.value "url" ++ [separator (conf.value "url")]
        ++ "SERVICE=WMS&VERSION=".toList
        ++ (if conf.hasValue "wms_version" then conf.value "wms_version" else "1.1.1".toList)
        ++ "&REQUEST=GetMap&LAYERS=".toList ++ conf.value "layers"
        ++ "&FORMAT=".toList
        ++ (if conf.value "wms_format" = [] then "image/".toList ++ getExtension out
            else conf.value "wms_format")
        ++ "&STYLES=".toList ++ conf.value "style"
        ++ "&SRS=".toList
        ++ (if conf.value "srs" = [] then "EPSG:4326".toList else conf.value "srs")
        ++ "&WIDTH=".toList ++ intToDec (getPixelsPerTile out)
        ++ "&HEIGHT=".toList ++ intToDec (getPixelsPerTile out)
        ++ "&BBOX=%lf,%lf,%lf,%lf".toList
        ++ "&.".toList ++ getExtension out ∧
    getExtension out = resolveFormat (WMSSource.new conf : WMSSource Profile Pattern) caps ∧
    (∀ s, env.createSRS (resolveSRS (WMSSource.new conf : WMSSource Profile Pattern)) = some s →
      ∃ out1, initializeSource env (WMSSource.new conf : WMSSource Profile Pattern)
        = Except.ok out1) := by
  obtain ⟨result, -, hout⟩ := initializeSource_ok env _ out caps hcaps hinit
  have hfmt : getExtension out
      = resolveFormat (WMSSource.new conf : WMSSource Profile Pattern) caps := by
    rw [hout]
    rfl
  have hsize : getPixelsPerTile out
      = (WMSSource.new conf : WMSSource Profile Pattern)._tile_size := by
    rw [hout]
    rfl
  refine ⟨?_, hfmt, fun s hs => initializeSource_returns env _ caps s hcaps hs⟩
  have hproto := (applyTileService_no_override env
    (buildPrototype (requestCapabilities (WMSSource.new conf)) caps) result hts).2
  rw [hfmt, hsize, hout, hproto, buildPrototype_prototype]
  simp only [List.append_assoc]
  rfl

/-- C12, witness: base URL `http://x/wms?`, layer `L1`, nothing else
configured. -/
theorem initialize_standard_prototype_witness :
    ∃ out, initializeSource plainEnv defaultSource = Except.ok out ∧
      out._prototype
        = ("http://x/wms?&SERVICE=WMS&VERSION=1.1.1&REQUEST=GetMap&LAYERS=L1"
          ++ "&FORMAT=image/jpg&STYLES=&SRS=EPSG:4326&WIDTH=256&HEIGHT=256"
          ++ "&BBOX=%lf,%lf,%lf,%lf&.jpg").toList :=
  ⟨applyTileService plainEnv (buildPrototype (requestCapabilities defaultSource) worldCapabilities)
      (some DemoProfile.globalGeodetic), by rfl,
    (initialize_standard_prototype plainEnv
      (demoConfig [("url", "http://x/wms?"), ("layers", "L1")]) _ worldCapabilities rfl (by rfl)
      (fun ts h => by simp [plainEnv, demoEnv] at h)).1.trans (by decide)⟩

/-- C13: with the capabilities read, a valid SRS equivalent to neither
well-known global reference, no layer of the configured name and no
tile-service override, the initialisation returns and calls `setProfile` with
the global geodetic profile when the SRS is geographic, and with the null
profile when it is not. -/
theorem initialize_without_layer (env : Env SRS Profile Pattern)
    (src : WMSSource Profile Pattern) (caps : Capabilities) (s : SRS)
    (hcaps : env.readCapabilities (capabilitiesURL src) = some caps)
    (hsrs : env.createSRS (resolveSRS src) = some s)
    (hmerc : env.isEquivalentTo s (env.getSRS env.globalMercatorProfile) = false)
    (hgeod : env.isEquivalentTo s (env.getSRS env.globalGeodeticProfile) = false)
    (hlayer : caps.getLayerByName src._layers = none)
    (hts : ∀ ts, env.readTileService (tileServiceURL src) = some ts →
      ts.getMatchingPatterns src._layers (resolveFormat src caps) src._style (resolveSRS src)
        src._tile_size src._tile_size = []) :
    ∃ out, initializeSource env src = Except.ok out ∧
      (env.isGeographic s = true →
        out.profile = some env.globalGeodeticProfile ∧
        out.calls.getLast? = some (Call.setProfile (some env.globalGeodeticProfile))) ∧
      (env.isGeographic s = false →
        out.profile = none ∧ out.calls.getLast? = some (Call.setProfile none)) := by
  have hres := resolveProfile_no_layer env caps (buildPrototype (requestCapabilities src) caps)
    s hsrs hmerc hgeod hlayer
  refine ⟨_, initializeSource_of_resolveProfile env src caps _ hcaps hres, ?_, ?_⟩
  · intro hgeo
    have h := (applyTileService_no_override env (buildPrototype (requestCapabilities src) caps)
      (if env.isGeographic s = true then some env.globalGeodeticProfile else none) hts).1
    rw [if_pos hgeo] at h
    refine ⟨by rw [if_pos hgeo]; exact h, ?_⟩
    rw [applyTileService_calls]
    simp only [if_pos hgeo, h]
    simp
  · intro hgeo
    have hne : ¬ env.isGeographic s = true := by simp [hgeo]
    have h := (applyTileService_no_override env (buildPrototype (requestCapabilities src) caps)
      (if env.isGeographic s = true then some env.globalGeodeticProfile else none) hts).1
    rw [if_neg hne] at h
    refine ⟨by rw [if_neg hne]; exact h, ?_⟩
    rw [applyTileService_calls]
    simp only [if_neg hne, h]
    simp

/-- C13, witness: the geographic SRS `EPSG:4269` with the unlisted layer
`L2`. -/
theorem initialize_without_layer_witness :
    ∃ out, initializeSource plainEnv unlistedSource = Except.ok out ∧
      out.profile = some DemoProfile.globalGeodetic := by
  obtain ⟨out, hout, hgeo, -⟩ := initialize_without_layer plainEnv unlistedSource
    worldCapabilities DemoSRS.nad83 rfl (by decide) (by decide) (by decide) (by decide)
    (fun ts h => by simp [plainEnv, demoEnv] at h)
  exact ⟨out, hout, (hgeo (by decide)).1⟩

/-- C14: the separator is `?` exactly when the base URL holds no `?`, and
`&` otherwise; the capabilities URL is the configured one, or when none is
configured the base URL, the separator and
`SERVICE=WMS&VERSION=1.1.1&REQUEST=GetCapabilities`; the tile-service URL is
the configured one, or when none is configured the base URL, the separator and
`request=GetTileService`.  An initialisation that returns has read the
capabilities from that URL: it stores the URL, stops there when the reader
returns nothing for it, and otherwise takes the format from the document the
reader returns for it.  It has then probed the tile service at that URL: it
stores the URL and what the reader returns for it, takes profile and prototype
from that document when it answers with patterns, keeps the WMS prototype when
the reader returns nothing for it, and has made no other read. -/
theorem initialize_urls (env : Env SRS Profile Pattern) (src : WMSSource Profile Pattern) :
    (separator src._prefix_ = '?' ↔ '?' ∉ src._prefix_) ∧
    (separator src._prefix_ = '&' ↔ '?' ∈ src._prefix_) ∧
    (src._capabilitiesURL = [] →
      capabilitiesURL src = src._prefix_ ++ [separator src._prefix_]
        ++ "SERVICE=WMS&VERSION=1.1.1&REQUEST=GetCapabilities".toList) ∧
    (src._capabilitiesURL ≠ [] → capabilitiesURL src = src._capabilitiesURL) ∧
    (src._tileServiceURL = [] →
      tileServiceURL src = src._prefix_ ++ [separator src._prefix_]
        ++ "request=GetTileService".toList) ∧
    (src._tileServiceURL ≠ [] → tileServiceURL src = src._tileServiceURL) ∧
    (∀ out, initializeSource env src = Except.ok out →
      out._capabilitiesURL = capabilitiesURL src ∧
      (env.readCapabilities (capabilitiesURL src) = none →
        out.calls = src.calls ++ [Call.readCapabilities (capabilitiesURL src)] ∧
        out._tileServiceURL = src._tileServiceURL ∧
        out._tileService.isSome = src._tileService.isSome ∧
        out._format = src._format ∧
        out._prototype = src._prototype) ∧
      (∀ caps, env.readCapabilities (capabilitiesURL src) = some caps →
        out.calls = src.calls ++ [Call.readCapabilities (capabilitiesURL src),
          Call.readTileService (tileServiceURL src), Call.setProfile out.profile] ∧
        getExtension out = resolveFormat src caps ∧
        out._tileServiceURL = tileServiceURL src ∧
        out._tileService = env.readTileService (tileServiceURL src) ∧
        (∀ ts p rest, env.readTileService (tileServiceURL src) = some ts →
          ts.getMatchingPatterns src._layers (resolveFormat src caps) src._style
            (resolveSRS src) src._tile_size src._tile_size = p :: rest →
          out.profile = ts.createProfile (p :: rest) ∧
          out._prototype
            = src._prefix_ ++ [separator src._prefix_] ++ env.getPrototype p
              ++ "&.".toList ++ resolveFormat src caps) ∧
        (env.readTileService (tileServiceURL src) = none →
          out._prototype
            = getMapPrototype (buildPrototype (requestCapabilities src) caps)
              ++ "&.".toList ++ resolveFormat src caps))) := by
  refine ⟨?_, ?_, ?_, ?_, ?_, ?_, ?_⟩
  · unfold separator
    split <;> simp_all
  · unfold separator
    split <;> simp_all
  · intro h
    simp [capabilitiesURL, h]
  · intro h
    simp [capabilitiesURL, h]
  · intro h
    simp [tileServiceURL, h]
  · intro h
    simp [tileServiceURL, h]
  · intro out hinit
    refine ⟨?_, ?_, ?_⟩
    · cases hcaps : env.readCapabilities (capabilitiesURL src) with
      | none =>
        rw [initializeSource_unreadable env src hcaps] at hinit
        rw [← Except.ok.inj hinit]
        rfl
      | some caps =>
        obtain ⟨result, -, hout⟩ := initializeSource_ok env src out caps hcaps hinit
        rw [hout]
        rfl
    · intro hnone
      rw [initializeSource_unreadable env src hnone] at hinit
      rw [← Except.ok.inj hinit]
      exact ⟨rfl, rfl, rfl, rfl, rfl⟩
    · intro caps hcaps
      obtain ⟨result, -, hout⟩ := initializeSource_ok env src out caps hcaps hinit
      refine ⟨?_, ?_, ?_, ?_, ?_, ?_⟩
      · rw [hout, applyTileService_calls]
        simp [buildPrototype, requestCapabilities, tileServiceURL]
      · rw [hout]
        rfl
      · rw [hout]
        rfl
      · rw [hout]
        rfl
      · intro ts p rest hts hp
        rw [hout]
        exact applyTileService_override env (buildPrototype (requestCapabilities src) caps)
          result ts p rest hts hp
      · intro hts
        have hnone : ∀ ts, env.readTileService (tileServiceURL src) = some ts →
            ts.getMatchingPatterns src._layers (resolveFormat src caps) src._style
              (resolveSRS src) src._tile_size src._tile_size = [] := by
          intro ts h
          rw [hts] at h
          cases h
        rw [hout]
        exact (applyTileService_no_override env (buildPrototype (requestCapabilities src) caps)
          result hnone).2

/-- C14, witness: base URL `http://x/wms?`, which holds a `?`, and no URL
configured. -/
theorem initialize_urls_witness :
    separator defaultSource._prefix_ = '&' ∧
    ∃ out, initializeSource plainEnv defaultSource = Except.ok out ∧
      out.calls
        = [Call.readCapabilities
            "http://x/wms?&SERVICE=WMS&VERSION=1.1.1&REQUEST=GetCapabilities".toList,
          Call.readTileService "http://x/wms?&request=GetTileService".toList,
          Call.setProfile out.profile] ∧
      out._tileServiceURL = "http://x/wms?&request=GetTileService".toList :=
  ⟨by decide,
    applyTileService plainEnv (buildPrototype (requestCapabilities defaultSource) worldCapabilities)
      (some DemoProfile.globalGeodetic), by rfl,
    (((initialize_urls plainEnv defaultSource).2.2.2.2.2.2 _ (by rfl)).2.2
      worldCapabilities rfl).1,
    (((initialize_urls plainEnv defaultSource).2.2.2.2.2.2 _ (by rfl)).2.2
      worldCapabilities rfl).2.2.1⟩

/-- C15, as amended: with the capabilities read, a valid SRS equivalent to
neither well-known global reference, the layer of the configured name found
with native box `n` and geographic box `g`, and no tile-service override, the
initialisation returns and the profile it sets is: for a geographic SRS with
`n` all zero and `g` not, the profile `Profile::create` returns for the SRS
identifier and `g`, and the global geodetic profile if that is null; for a
geographic SRS with `n` and `g` all zero, the global geodetic profile; for a
geographic SRS with `n` not all zero, the profile `Profile::create` returns
for the SRS identifier and `n`, and the global geodetic profile if that is
null; for an SRS that is not geographic, whatever `Profile::create` returns
for the SRS identifier and `n`, all zero or not, null included. -/
theorem initialize_profile_from_layer (env : Env SRS Profile Pattern)
    (src : WMSSource Profile Pattern) (caps : Capabilities) (s : SRS) (layer : Layer)
    (hcaps : env.readCapabilities (capabilitiesURL src) = some caps)
    (hsrs : env.createSRS (resolveSRS src) = some s)
    (hmerc : env.isEquivalentTo s (env.getSRS env.globalMercatorProfile) = false)
    (hgeod : env.isEquivalentTo s (env.getSRS env.globalGeodeticProfile) = false)
    (hlayer : caps.getLayerByName src._layers = some layer)
    (hts : ∀ ts, env.readTileService (tileServiceURL src) = some ts →
      ts.getMatchingPatterns src._layers (resolveFormat src caps) src._style (resolveSRS src)
        src._tile_size src._tile_size = []) :
    ∃ out, initializeSource env src = Except.ok out ∧
      (env.isGeographic s = true → layer.extents.allZero = true →
        layer.latLonExtents.allZero = false →
        out.profile
          = match env.createProfile (resolveSRS src) layer.latLonExtents with
            | some p => some p
            | none => some env.globalGeodeticProfile) ∧
      (env.isGeographic s = true → layer.extents.allZero = true →
        layer.latLonExtents.allZero = true →
        out.profile = some env.globalGeodeticProfile) ∧
      (env.isGeographic s = true → layer.extents.allZero = false →
        out.profile
          = match env.createProfile (resolveSRS src) layer.extents with
            | some p => some p
            | none => some env.globalGeodeticProfile) ∧
      (env.isGeographic s = false →
        out.profile = env.createProfile (resolveSRS src) layer.extents) := by
  obtain ⟨out, hinit⟩ := initializeSource_returns env src caps s hcaps hsrs
  obtain ⟨result, hres, hout⟩ := initializeSource_ok env src out caps hcaps hinit
  have hprofile : out.profile = result := by
    rw [hout]
    exact (applyTileService_no_override env _ _ hts).1
  refine ⟨out, hinit, ?_, ?_, ?_, ?_⟩
  · intro hgeo hn hg
    have h := resolveProfile_latLon env caps (buildPrototype (requestCapabilities src) caps)
      s layer hsrs hmerc hgeod hgeo hlayer hn hg
    rw [hres] at h
    rw [hprofile, Except.ok.inj h]
    rfl
  · intro hgeo hn hg
    have h := resolveProfile_zero_geographic env caps
      (buildPrototype (requestCapabilities src) caps) s layer hsrs hmerc hgeod hgeo hlayer hn hg
    rw [hres] at h
    rw [hprofile]
    exact Except.ok.inj h
  · intro hgeo hn
    have h := resolveProfile_native_geographic env caps
      (buildPrototype (requestCapabilities src) caps) s layer hsrs hmerc hgeod hgeo hlayer hn
    rw [hres] at h
    rw [hprofile, Except.ok.inj h]
    rfl
  · intro hgeo
    have h := resolveProfile_projected env caps
      (buildPrototype (requestCapabilities src) caps) s layer hsrs hmerc hgeod hgeo hlayer
    rw [hres] at h
    rw [hprofile, Except.ok.inj h]
    rfl

/-- C15, witness: SRS `EPSG:4269`, layer `L1` with native box `(0,0,0,0)`
and geographic box `(-180,-90,180,90)`. -/
theorem initialize_profile_from_layer_witness :
    ∃ out, initializeSource plainEnv nad83Source = Except.ok out ∧
      out.profile = some (DemoProfile.custom DemoSRS.nad83 globe) := by
  obtain ⟨out, hout, h, -⟩ := initialize_profile_from_layer plainEnv nad83Source
    worldCapabilities DemoSRS.nad83
    { extents := Bounds.ofInts 0 0 0 0, latLonExtents := globe }
    rfl (by decide) (by decide) (by decide) (by decide)
    (fun ts h => by simp [plainEnv, demoEnv] at h)
  exact ⟨out, hout, (h (by decide) (by decide) (by decide)).trans (by decide)⟩

/-- C15, as stated, fails: with the geographic SRS `EPSG:4269`, the layer
`L1` found with native box `(0,0,0,0)` and geographic box `(-180,-90,180,90)`,
and `Profile::create` returning null, the profile set is the global geodetic
profile of the last resort, not what `Profile::create` returned for the SRS
identifier and the geographic box. -/
theorem null_custom_profile_becomes_geodetic :
    nullProfileEnv.createSRS (resolveSRS nad83Source) = some DemoSRS.nad83 ∧
    nullProfileEnv.isEquivalentTo DemoSRS.nad83
      (nullProfileEnv.getSRS nullProfileEnv.globalMercatorProfile) = false ∧
    nullProfileEnv.isEquivalentTo DemoSRS.nad83
      (nullProfileEnv.getSRS nullProfileEnv.globalGeodeticProfile) = false ∧
    nullProfileEnv.isGeographic DemoSRS.nad83 = true ∧
    worldCapabilities.getLayerByName nad83Source._layers
      = some { extents := Bounds.ofInts 0 0 0 0, latLonExtents := globe } ∧
    nullProfileEnv.createProfile (resolveSRS nad83Source) globe = none ∧
    (initializeSource nullProfileEnv nad83Source).toOption.map (fun out => out.profile)
      = some (some DemoProfile.globalGeodetic) ∧
    (initializeSource nullProfileEnv nad83Source).toOption.map (fun out => out.profile)
      ≠ some (nullProfileEnv.createProfile (resolveSRS nad83Source) globe) := by
  decide

/-- C16, as amended: after construction the stored elevation unit is the
configured string itself when that is not empty, whatever it is, and `m` when
the configuration gives no value or an empty one; `createHeightField` then
tells `ft`, for which the scale factor is the `float` of `0.3048`, from
everything else, for which it is 1. -/
theorem elevation_unit_stored (conf : Config) :
    (WMSSource.new conf : WMSSource Profile Pattern)._elevation_unit
      = (if conf.value "elevation_unit" = [] then "m".toList
         else conf.value "elevation_unit") ∧
    (scaleFactor (WMSSource.new conf : WMSSource Profile Pattern)._elevation_unit
      = if conf.value "elevation_unit" = "ft".toList then 10227391 / 33554432 else 1) := by
  refine ⟨rfl, ?_⟩
  have hstored : (WMSSource.new conf : WMSSource Profile Pattern)._elevation_unit
      = (if conf.value "elevation_unit" = [] then "m".toList
         else conf.value "elevation_unit") := rfl
  rw [hstored]
  by_cases h : conf.value "elevation_unit" = []
  · rw [if_pos h, if_neg (by rw [h]; decide), scaleFactor_other _ (by decide)]
  · rw [if_neg h]
    by_cases hft : conf.value "elevation_unit" = "ft".toList
    · rw [if_pos hft, hft, scaleFactor_feet]
    · rw [if_neg hft, scaleFactor_other _ hft]

/-- C16, as stated, fails: the unit `furlong` is stored as it is, and no
finite set of labels holds the stored unit of every configuration. -/
theorem elevation_unit_not_normalized :
    (WMSSource.new (demoConfig [("elevation_unit", "furlong")])
      : WMSSource DemoProfile Str)._elevation_unit = "furlong".toList ∧
    ¬ ∃ units : List Str, ∀ conf : Config,
      (WMSSource.new conf : WMSSource DemoProfile Str)._elevation_unit ∈ units := by
  refine ⟨by decide, ?_⟩
  rintro ⟨units, h⟩
  have hmem := h
    { value := fun _ => List.replicate ((units.map List.length).sum + 1) 'x'
      hasValue := fun _ => true
      valueInt := fun _ fallback => fallback }
  have hstored : (WMSSource.new
      { value := fun _ => List.replicate ((units.map List.length).sum + 1) 'x'
        hasValue := fun _ => true
        valueInt := fun _ fallback => fallback } : WMSSource DemoProfile Str)._elevation_unit
      = List.replicate ((units.map List.length).sum + 1) 'x' := by
    simp [WMSSource.new, List.replicate_succ]
  rw [hstored] at hmem
  have hlen := length_le_sum_of_mem units _ hmem
  simp only [List.length_replicate] at hlen
  omega

/-- C18: with the capabilities read and an SRS identifier the factory cannot
resolve, the initialisation does not complete: the layer step calls
`isGeographic` on the null reference when the layer is found (line 174), the
last resort does when it is not (line 197). -/
theorem initialize_null_srs (env : Env SRS Profile Pattern)
    (src : WMSSource Profile Pattern) (caps : Capabilities)
    (hcaps : env.readCapabilities (capabilitiesURL src) = some caps)
    (hsrs : env.createSRS (resolveSRS src) = none) :
    initializeSource env src = Except.error Fault.nullDereference ∧
    wellKnownProfile env (none : Option SRS) = none ∧
    (∀ layer, caps.getLayerByName src._layers = some layer →
      layerProfile env caps src._layers (resolveSRS src) none none
        = Except.error Fault.nullDereference) ∧
    (caps.getLayerByName src._layers = none →
      layerProfile env caps src._layers (resolveSRS src) none none = Except.ok none ∧
      lastResortProfile env none none = Except.error Fault.nullDereference) := by
  refine ⟨initializeSource_null env src caps hcaps hsrs, rfl, ?_, ?_⟩
  · intro layer hlayer
    simp [layerProfile, hlayer, throw, throwThe, MonadExceptOf.throw]
  · intro hlayer
    constructor
    · simp [layerProfile, hlayer, pure, Except.pure]
    · rfl

/-- C18, witness: the SRS identifier `EPSG:0`, which the factory does not
know, with the layer `L1` found in the capabilities. -/
theorem initialize_null_srs_witness :
    plainEnv.createSRS (resolveSRS unknownSRSSource) = none ∧
    initializeSource plainEnv unknownSRSSource = Except.error Fault.nullDereference :=
  ⟨by decide, (initialize_null_srs plainEnv unknownSRSSource worldCapabilities rfl
    (by decide)).1⟩

/-- C19: `replaceIn` is a total function; with `sub` empty it returns `s`;
with `sub` not empty, a turn of its loop that finds `sub` at `b1` leaves
`|s| - b` smaller by the length of `sub` at least, resumes right behind the
inserted `other` and goes on with the loop, a turn that does not find `sub`
returns the string, and the loop returns within `|s| + 1` turns, whatever
`other` is. -/
theorem replaceIn_terminates (s sub other : Str) :
    (sub = [] → replaceIn s sub other = s) ∧
    (∀ hsub : sub ≠ [], ∀ (t : Str) (b b1 : Nat), find t sub b = some b1 →
      b ≤ b1 ∧ b1 + sub.length ≤ t.length ∧
      (replace t b1 sub.length other).length - (b1 + other.length) + sub.length
        ≤ t.length - b ∧
      (replace t b1 sub.length other).take (b1 + other.length) = t.take b1 ++ other ∧
      replaceInLoop sub hsub other t b
        = replaceInLoop sub hsub other (replace t b1 sub.length other) (b1 + other.length)) ∧
    (∀ hsub : sub ≠ [], ∀ (t : Str) (b : Nat), find t sub b = none →
      replaceInLoop sub hsub other t b = t) ∧
    (sub ≠ [] → replaceInFuel (s.length + 1) sub other s 0 = some (replaceIn s sub other)) := by
  refine ⟨?_, ?_, ?_, ?_⟩
  · intro h
    simp [replaceIn, h]
  · intro hsub t b b1 h
    have hb := find_bounds t sub hsub b b1 h
    refine ⟨hb.1, hb.2, replace_measure t sub other hsub b b1 h,
      replace_take t other b1 sub.length (by omega), ?_⟩
    rw [replaceInLoop_eq, h]
  · intro hsub t b h
    rw [replaceInLoop_eq, h]
  · intro hsub
    rw [replaceInFuel_eq sub hsub other (s.length + 1) s 0 (by omega)]
    simp [replaceIn, hsub]

/-- C19, witness: a replacement that holds the pattern, and an empty one. -/
theorem replaceIn_terminates_witness :
    replaceIn "a-a".toList "a".toList "aa".toList = "aa-aa".toList ∧
    replaceIn "a-a".toList "a".toList [] = "-".toList :=
  ⟨Option.some.inj (((replaceIn_terminates "a-a".toList "a".toList "aa".toList).2.2.2
      (by decide)).symm.trans (by decide)),
    Option.some.inj (((replaceIn_terminates "a-a".toList "a".toList []).2.2.2
      (by decide)).symm.trans (by decide))⟩

/-- C17: on the standard WMS path with configuration strings holding neither
a percent sign nor a NUL, a layer list of 2048 characters or more makes the
formatted string longer than the buffer of `createURI` holds, for every
bounding box: `sprintf` writes past the end of `buf`. -/
theorem createURI_overflow (env : Env SRS Profile Pattern)
    (src out : WMSSource Profile Pattern) (caps : Capabilities) (bounds : Bounds)
    (hcaps : env.readCapabilities (capabilitiesURL src) = some caps)
    (hinit : initializeSource env src = Except.ok out)
    (hplain : PlainConfig src caps)
    (hts : ∀ ts, env.readTileService (tileServiceURL src) = some ts →
      ts.getMatchingPatterns src._layers (resolveFormat src caps) src._style (resolveSRS src)
        src._tile_size src._tile_size = [])
    (hlong : 2048 ≤ src._layers.length) :
    formatURI out._prototype bounds = Except.error Fault.bufferOverflow ∧
    createURI env out bounds = Except.error Fault.bufferOverflow := by
  have hproto := standard_prototype env src out caps hcaps hinit hts
  have hx := plain_getMapQuery src caps hplain
  have hy : Plain ("&.".toList ++ resolveFormat src caps) :=
    plain_append _ _ (by decide) (plain_resolveFormat src caps hplain)
  have hfmt := formatURI_bbox _ _ bounds hx hy
  rw [← hproto] at hfmt
  have hlayers : (buildPrototype (requestCapabilities src) caps)._layers = src._layers := rfl
  have hlen : ¬ (getMapQuery (buildPrototype (requestCapabilities src) caps)
      ++ formatBounds bounds ++ ("&.".toList ++ resolveFormat src caps)).length < 2048 := by
    simp only [getMapQuery, hlayers, List.length_append]
    omega
  rw [if_neg hlen] at hfmt
  exact ⟨hfmt, by simp [createURI, hfmt, Except.map]⟩

/-- C17, witness: a layer list of 2048 characters and the whole globe. -/
theorem createURI_overflow_witness :
    longSource._layers.length = 2048 ∧
    ∃ out, initializeSource plainEnv longSource = Except.ok out ∧
      createURI plainEnv out globe = Except.error Fault.bufferOverflow := by
  have hlayers : longSource._layers = List.replicate 2048 'a' := rfl
  have hlen : longSource._layers.length = 2048 := by
    rw [hlayers, List.length_replicate]
  have hplain : PlainConfig longSource worldCapabilities :=
    ⟨by decide, by decide, hlayers ▸ plain_replicate 2048 'a' (by decide) (by decide),
      by decide, by decide, by decide, by decide, by decide⟩
  obtain ⟨out, hout⟩ := initializeSource_returns plainEnv longSource worldCapabilities
    DemoSRS.wgs84 rfl (by decide)
  exact ⟨hlen, out, hout,
    (createURI_overflow plainEnv longSource out worldCapabilities globe rfl hout hplain
      (fun ts h => by simp [plainEnv, demoEnv] at h) (le_of_eq hlen.symm)).2⟩

end Claims

end WMS
